import Mathlib

/-!
# The `ad` driver (`src/ad_main.c`)

A shallow embedding of the command-line driver of the adding-doubling program:
`strdup_together`, `validate_slab` and `main` (option loop, output-file naming,
the record loop of file mode and the single record of command-line mode).

Conventions of the embedding.

* A C `double` that holds a real value is an element of an arbitrary linearly
  ordered field `α` with a floor function; definitions are computable and can
  be run at `α = ℚ`, statements about the cosine are made at `α = ℝ`.
* `validate_slab` and the block that calls `RT` only compare their fields, so
  they are defined over any type with decidable `<` and `≤`; `CDouble α` adds
  NaN and the two infinities to `α` with the comparisons of IEEE 754 (every
  comparison with NaN is false), and the statements that are made for every
  input are made there.
* A C `int` is an `Int`; the values that occur (return codes, a quadrature
  order) are far from the 32-bit limits.
* Standard output is a list of `Line`s, one per `printf` call, keeping the
  format string and the printed arguments.
* The engine `RT`, `cos`, `HENYEY_GREENSTEIN`, the file system and the
  indeterminate initial content of the local `slab` are fields of `Env`.
-/

namespace AD

/-! ## Data model -/

/-- Modelled from the spec: the declaration of `struct AD_slab_type`
(`ad_globl.h`) is not among the sources; the fields are the ones `main` and
`validate_slab` read and write. -/
structure AD_slab_type (α : Type) where
  a : α
  b : α
  g : α
  phase_function : Int
  n_slab : α
  n_top_slide : α
  n_bottom_slide : α
  b_top_slide : α
  b_bottom_slide : α
  cos_angle : α
deriving DecidableEq

/-- One `printf` call on standard output: the format string and its arguments. -/
inductive Line (α : Type) where
  /-- A format with one `%f` argument, e.g. `"Bad Albedo a=%f\n"`. -/
  | msg (format : String) (value : α)
  /-- A format with one `%d` argument. -/
  | msgInt (format : String) (value : Int)
  /-- A format without arguments. -/
  | text (format : String)
  /-- The result line `"%9.5f \t%9.5f \t%9.5f \t%9.5f\n"` with its four arguments. -/
  | result (R1 T1 URU UTU : α)
deriving DecidableEq

/-- This line is a result line (the one format that prints UR1, UT1, URU, UTU). -/
def Line.isResult {α : Type} : Line α → Bool
  | Line.result _ _ _ _ => true
  | _ => false

/-- The C remainder `x % y` on `int` (truncated division). -/
def c_rem (x y : Int) : Int := Int.tmod x y

/-! ## `validate_slab` (lines 119-190) -/

/-- Embedding of `validate_slab`: the lines printed and the returned code.
`machine` is the C `int` flag, `!machine` is `machine = 0`. The tests are
the comparisons of the source as written, over any type with decidable `<`
and `≤`: in a linearly ordered field for real values, in `CDouble` for values
that may be NaN or infinite. -/
def validate_slab {α : Type} [LT α] [LE α] [DecidableRel (LT.lt : α → α → Prop)]
    [DecidableRel (LE.le : α → α → Prop)] [OfNat α 0] [OfNat α 1] [OfNat α 10] [Neg α]
    (slab : AD_slab_type α) (nstreams : Int) (machine : Int) : List (Line α) × Int :=
  if slab.a < 0 ∨ slab.a > 1 then
    (if machine = 0 then [Line.msg "Bad Albedo a=%f\n" slab.a] else [], -1)
  else if slab.b < 0 then
    (if machine = 0 then [Line.msg "Bad Optical Thickness b=%f\n" slab.b] else [], -2)
  else if slab.g ≤ -1 ∨ slab.g ≥ 1 then
    (if machine = 0 then [Line.msg "Bad Anisotropy g=%f\n" slab.g] else [], -3)
  else if slab.n_slab < 0 ∨ slab.n_slab > 10 then
    (if machine = 0 then [Line.msg "Bad Slab Index n=%f\n" slab.n_slab] else [], -4)
  else if slab.n_top_slide < 1 ∨ slab.n_top_slide > 10 then
    (if machine = 0 then [Line.msg "Bad Top Slide Index n=%f\n" slab.n_top_slide] else [], -5)
  else if slab.n_bottom_slide < 1 ∨ slab.n_bottom_slide > 10 then
    (if machine = 0 then [Line.msg "Bad Top Slide Index n=%f\n" slab.n_bottom_slide] else [], -6)
  else if slab.b_top_slide < 0 ∨ slab.b_top_slide > 10 then
    (if machine = 0 then
      [Line.msg "Bad Top Slide Optical Thickness b=%f\n" slab.b_top_slide] else [], -7)
  else if slab.b_bottom_slide < 0 ∨ slab.b_bottom_slide > 10 then
    (if machine = 0 then
      [Line.msg "Bad Bottom Slide Optical Thickness b=%f\n" slab.b_bottom_slide] else [], -8)
  else if nstreams < 4 ∨ c_rem nstreams 4 ≠ 0 then
    (if machine = 0 then
      [Line.msgInt "Bad Number of Quadrature Points npts=%d\n" nstreams,
       Line.text "Should be a multiple of four!\n"] else [], -9)
  else
    ([], 0)

/-- The range bounds as the specification lists them. -/
def InBounds {α : Type} [LT α] [LE α] [OfNat α 0] [OfNat α 1] [OfNat α 10] [Neg α]
    (slab : AD_slab_type α) (nstreams : Int) : Prop :=
  (0 ≤ slab.a ∧ slab.a ≤ 1) ∧ 0 ≤ slab.b ∧ (-1 < slab.g ∧ slab.g < 1) ∧
  (0 ≤ slab.n_slab ∧ slab.n_slab ≤ 10) ∧
  (1 ≤ slab.n_top_slide ∧ slab.n_top_slide ≤ 10) ∧
  (1 ≤ slab.n_bottom_slide ∧ slab.n_bottom_slide ≤ 10) ∧
  (0 ≤ slab.b_top_slide ∧ slab.b_top_slide ≤ 10) ∧
  (0 ≤ slab.b_bottom_slide ∧ slab.b_bottom_slide ≤ 10) ∧
  4 ≤ nstreams ∧ nstreams % 4 = 0

/-- The nine checks in the order the specification names them: `check_ok k`
says that check number `k` (1 albedo, 2 optical thickness, 3 anisotropy,
4 slab index, 5 top slide index, 6 bottom slide index, 7 top slide optical
thickness, 8 bottom slide optical thickness, 9 quadrature order) passes. -/
def check_ok {α : Type} [LinearOrderedField α] (slab : AD_slab_type α) (nstreams : Int) :
    Nat → Prop
  | 1 => 0 ≤ slab.a ∧ slab.a ≤ 1
  | 2 => 0 ≤ slab.b
  | 3 => -1 < slab.g ∧ slab.g < 1
  | 4 => 0 ≤ slab.n_slab ∧ slab.n_slab ≤ 10
  | 5 => 1 ≤ slab.n_top_slide ∧ slab.n_top_slide ≤ 10
  | 6 => 1 ≤ slab.n_bottom_slide ∧ slab.n_bottom_slide ≤ 10
  | 7 => 0 ≤ slab.b_top_slide ∧ slab.b_top_slide ≤ 10
  | 8 => 0 ≤ slab.b_bottom_slide ∧ slab.b_bottom_slide ≤ 10
  | 9 => 4 ≤ nstreams ∧ nstreams % 4 = 0
  | _ => True

instance check_ok_decidable {α : Type} [LinearOrderedField α] (slab : AD_slab_type α)
    (nstreams : Int) (k : Nat) : Decidable (check_ok slab nstreams k) := by
  unfold check_ok
  split <;> infer_instance

/-- The test of check number `k` exactly as `validate_slab` writes it: check
`k` fails when `test_fires k` holds and passes when it does not. No property
of the order is assumed, so the same tests are read on values that include NaN. -/
def test_fires {α : Type} [LT α] [LE α] [OfNat α 0] [OfNat α 1] [OfNat α 10] [Neg α]
    (slab : AD_slab_type α) (nstreams : Int) : Nat → Prop
  | 1 => slab.a < 0 ∨ slab.a > 1
  | 2 => slab.b < 0
  | 3 => slab.g ≤ -1 ∨ slab.g ≥ 1
  | 4 => slab.n_slab < 0 ∨ slab.n_slab > 10
  | 5 => slab.n_top_slide < 1 ∨ slab.n_top_slide > 10
  | 6 => slab.n_bottom_slide < 1 ∨ slab.n_bottom_slide > 10
  | 7 => slab.b_top_slide < 0 ∨ slab.b_top_slide > 10
  | 8 => slab.b_bottom_slide < 0 ∨ slab.b_bottom_slide > 10
  | 9 => nstreams < 4 ∨ c_rem nstreams 4 ≠ 0
  | _ => False

instance test_fires_decidable {α : Type} [LT α] [LE α] [DecidableRel (LT.lt : α → α → Prop)]
    [DecidableRel (LE.le : α → α → Prop)] [OfNat α 0] [OfNat α 1] [OfNat α 10] [Neg α]
    (slab : AD_slab_type α) (nstreams : Int) (k : Nat) :
    Decidable (test_fires slab nstreams k) := by
  unfold test_fires
  split <;> infer_instance

/-! ## C doubles with NaN and the infinities -/

/-- A C `double` as a comparison sees it: NaN, minus infinity, a real value
(an element of `α`) or plus infinity. -/
inductive CDouble (α : Type) where
  | nan
  | neg_inf
  | num (x : α)
  | pos_inf
deriving DecidableEq

/-- The comparison `x < y` of IEEE 754: false as soon as one side is NaN. -/
def CDouble.lt {α : Type} [LT α] : CDouble α → CDouble α → Prop
  | CDouble.num x, CDouble.num y => x < y
  | CDouble.neg_inf, CDouble.num _ => True
  | CDouble.neg_inf, CDouble.pos_inf => True
  | CDouble.num _, CDouble.pos_inf => True
  | _, _ => False

/-- The comparison `x <= y` of IEEE 754: false as soon as one side is NaN. -/
def CDouble.le {α : Type} [LE α] : CDouble α → CDouble α → Prop
  | CDouble.num x, CDouble.num y => x ≤ y
  | CDouble.neg_inf, CDouble.neg_inf => True
  | CDouble.neg_inf, CDouble.num _ => True
  | CDouble.neg_inf, CDouble.pos_inf => True
  | CDouble.num _, CDouble.pos_inf => True
  | CDouble.pos_inf, CDouble.pos_inf => True
  | _, _ => False

instance CDouble.instLT {α : Type} [LT α] : LT (CDouble α) := ⟨CDouble.lt⟩

instance CDouble.instLE {α : Type} [LE α] : LE (CDouble α) := ⟨CDouble.le⟩

instance CDouble.decidableLT {α : Type} [LT α] [dlt : DecidableRel (LT.lt : α → α → Prop)] :
    DecidableRel (LT.lt : CDouble α → CDouble α → Prop) := fun x y => by
  cases x <;> cases y <;>
    first
      | exact instDecidableTrue
      | exact instDecidableFalse
      | exact dlt _ _

instance CDouble.decidableLE {α : Type} [LE α] [dle : DecidableRel (LE.le : α → α → Prop)] :
    DecidableRel (LE.le : CDouble α → CDouble α → Prop) := fun x y => by
  cases x <;> cases y <;>
    first
      | exact instDecidableTrue
      | exact instDecidableFalse
      | exact dle _ _

/-- A numeral is the real value it writes. -/
instance CDouble.instOfNat {α : Type} (n : Nat) [OfNat α n] : OfNat (CDouble α) n :=
  ⟨CDouble.num (OfNat.ofNat n)⟩

/-- A decimal constant such as `0.0` is the real value it writes. -/
instance CDouble.instOfScientific {α : Type} [OfScientific α] : OfScientific (CDouble α) :=
  ⟨fun m s e => CDouble.num (OfScientific.ofScientific m s e)⟩

/-- The conversion of an `int` to `double`, as in `R1 = failed`. -/
instance CDouble.instIntCast {α : Type} [IntCast α] : IntCast (CDouble α) :=
  ⟨fun z => CDouble.num (z : α)⟩

/-- The unary minus: NaN stays NaN, the infinities change places. -/
instance CDouble.instNeg {α : Type} [Neg α] : Neg (CDouble α) :=
  ⟨fun x =>
    match x with
    | CDouble.nan => CDouble.nan
    | CDouble.neg_inf => CDouble.pos_inf
    | CDouble.num v => CDouble.num (-v)
    | CDouble.pos_inf => CDouble.neg_inf⟩

/-! ## `strdup_together` (lines 93-115) -/

/-- Embedding of `strdup_together`: a `char *` is `none` for `NULL` and
`some s` for a string; `strdup`, `malloc`, `strcpy` and `strcat` build fresh
copies (allocation failure is outside the model). -/
def strdup_together (s t : Option String) : Option String :=
  match s with
  | none =>
    match t with
    | none => none
    | some t1 => some t1
  | some s1 =>
    match t with
    | none => some s1
    | some t1 => some (s1 ++ t1)

/-! ## The environment of `main` -/

/-- Everything `main` uses that is not defined in `ad_main.c`. -/
structure Env (α : Type) where
  /-- The engine `RT (nstreams, &slab, &R1, &T1, &URU, &UTU)` of `ad_prime.h`:
  the slab it leaves behind (it receives a pointer) and the four results. -/
  RT : Int → AD_slab_type α → AD_slab_type α × α × α × α × α
  /-- The cosine of `math.h`. -/
  cos : α → α
  /-- The constant `HENYEY_GREENSTEIN` of `ad_globl.h`. -/
  HENYEY_GREENSTEIN : Int
  /-- The call `freopen (name, "r", stdin)`: the content of the file, `none` when it fails. -/
  open_read : String → Option (List Char)
  /-- The call `freopen (name, "w", stdout)`: whether it succeeds. -/
  open_write : String → Bool
  /-- The characters waiting on the standard input the program starts with. -/
  stdin : List Char
  /-- The indeterminate content of the local `slab` before anything is stored in it. -/
  slab0 : AD_slab_type α

/-! ## The option loop of `main` (lines 197-289) -/

/-- One result of `my_getopt (argc, argv, "h?vma:b:g:i:n:o:q:s:t:")`: the
option letter, with `strtod (optarg, NULL)` already applied where the case
converts its argument. `h` stands for `'h'`, `'?'` and every other letter. -/
inductive Opt (α : Type) where
  | i (x : α)
  | o (optarg : String)
  | n (x : α)
  | s (x : α)
  | t (x : α)
  | m
  | q (x : α)
  | a (x : α)
  | b (x : α)
  | g (x : α)
  | v
  | h
deriving DecidableEq

/-- The cast `(int) x` of a `double`: truncation toward zero (the cast is
undefined in C when the result is outside the range of `int`). -/
def c_int {α : Type} [LinearOrderedField α] [FloorRing α] (x : α) : Int :=
  if 0 ≤ x then ⌊x⌋ else ⌈x⌉

/-- The local variables of `main` that the option loop writes. -/
structure Locals (α : Type) where
  nstreams : Int
  anisotropy : α
  albedo : α
  index_of_refraction : α
  index_of_slide1 : α
  index_of_slide2 : α
  optical_thickness : α
  g_out_name : Option String
  g_incident_cosine : α
  machine_readable_output : Int
deriving DecidableEq

/-- The initialisers of lines 198-207. -/
def Locals.init {α : Type} [OfNat α 0] [OfNat α 1] [OfNat α 100] [OfScientific α] :
    Locals α where
  nstreams := 24
  anisotropy := 0
  albedo := 0.5
  index_of_refraction := 1.0
  index_of_slide1 := 1.0
  index_of_slide2 := 1.0
  optical_thickness := 100
  g_out_name := none
  g_incident_cosine := 1
  machine_readable_output := 0

/-- The `switch (c)` of lines 226-284; `none` when the case leaves the
program (`print_version` and `print_usage` call `exit (0)`). -/
def option_case {α : Type} [LinearOrderedField α] [FloorRing α] (env : Env α)
    (l : Locals α) : Opt α → Option (Locals α)
  | Opt.i x =>
    if x < 0 ∨ x > 90 then some l
    else some { l with g_incident_cosine := env.cos (x * 3.1415926535 / 180.0) }
  | Opt.o optarg => some { l with g_out_name := some optarg }
  | Opt.n x => some { l with index_of_refraction := x }
  | Opt.s x => some { l with index_of_slide1 := x, index_of_slide2 := x }
  | Opt.t x => some { l with index_of_slide2 := x }
  | Opt.m => some { l with machine_readable_output := 1 }
  | Opt.q x => some { l with nstreams := c_int x }
  | Opt.a x => some { l with albedo := x }
  | Opt.b x => some { l with optical_thickness := x }
  | Opt.g x => some { l with anisotropy := x }
  | Opt.v => none
  | Opt.h => none

/-- The `while ((c = my_getopt (...)) != EOF)` loop of lines 224-285. -/
def option_loop {α : Type} [LinearOrderedField α] [FloorRing α] (env : Env α) :
    Locals α → List (Opt α) → Option (Locals α)
  | l, [] => some l
  | l, o :: os =>
    match option_case env l o with
    | none => none
    | some l1 => option_loop env l1 os

/-! ## Standard input: `feof` and `scanf` -/

/-- The value of the macro `EOF`. -/
def EOF : Int := -1

/-- The input stream: the characters not read yet and the end-of-file indicator. -/
structure Stream where
  rest : List Char
  eof : Bool
deriving DecidableEq

/-- The call `feof (stdin)`. -/
def feof (s : Stream) : Int := if s.eof then 1 else 0

/-- The white-space characters of `isspace` in the C locale. -/
def isspace (c : Char) : Bool :=
  c = ' ' || c = '\t' || c = '\n' || c = '\x0b' || c = '\x0c' || c = '\r'

/-- The number written by a list of decimal digits. -/
def digits_value (ds : List Char) : Nat :=
  ds.foldl (fun n c => 10 * n + (c.toNat - '0'.toNat)) 0

/-- An optional sign in front of an input item: whether it is `-`, and what follows. -/
def take_sign : List Char → Bool × List Char
  | [] => (false, [])
  | c :: r => if c = '-' then (true, r) else if c = '+' then (false, r) else (false, c :: r)

/-- The fraction of a decimal input item: the digits after a `.`, and what follows. -/
def take_fraction : List Char → List Char × List Char
  | [] => ([], [])
  | c :: r => if c = '.' then r.span Char.isDigit else ([], c :: r)

/-- The call `scanf ("%lf", &x)` for decimal input: white space is skipped; at
the end of the input the indicator is set and `EOF` returned; otherwise the
input item (sign, digits, `.`, digits: the longest run that a decimal number
can start with) is consumed, the indicator is set when the item runs into the
end of the input, and the item is converted when it has a digit (return 1) or
nothing is stored (return 0). Exponents, hexadecimal numbers, `inf` and `nan`
are not part of this model. The result is the stream, the return value and the
content of `x` afterwards. -/
def scanf_lf {α : Type} [LinearOrderedField α] (s : Stream) (x : α) : Stream × Int × α :=
  let cs := s.rest.dropWhile isspace
  if cs = [] then ({ rest := [], eof := true }, EOF, x)
  else
    let sg := take_sign cs
    let ip := sg.2.span Char.isDigit
    let fp := take_fraction ip.2
    let s1 : Stream := { rest := fp.2, eof := s.eof || fp.2.isEmpty }
    if ip.1 = [] ∧ fp.1 = [] then (s1, 0, x)
    else
      let v : α := (digits_value (ip.1 ++ fp.1) : α) / 10 ^ fp.1.length
      (s1, 1, if sg.1 then -v else v)

/-- The call `scanf ("%d", &n)`, as `scanf_lf` with the input item a sign and
digits; a number outside the range of `int` is not part of this model. -/
def scanf_d (s : Stream) (n : Int) : Stream × Int × Int :=
  let cs := s.rest.dropWhile isspace
  if cs = [] then ({ rest := [], eof := true }, EOF, n)
  else
    let sg := take_sign cs
    let ip := sg.2.span Char.isDigit
    let s1 : Stream := { rest := ip.2, eof := s.eof || ip.2.isEmpty }
    if ip.1 = [] then (s1, 0, n)
    else
      let v : Int := (digits_value ip.1 : Int)
      (s1, 1, if sg.1 then -v else v)

/-! ## File mode: reading a record (lines 336-357) -/

/-- One guarded read `if (fileflag != EOF) fileflag = scanf ("%lf", &x);`,
`prev` being the stream and `fileflag` as the read before left them. -/
def guarded_lf {α β : Type} [LinearOrderedField α] (prev : Stream × Int × β) (x : α) :
    Stream × Int × α :=
  if prev.2.1 ≠ EOF then scanf_lf prev.1 x else (prev.1, prev.2.1, x)

/-- The guarded read `if (fileflag != EOF) fileflag = scanf ("%d", &nstreams);`. -/
def guarded_d {β : Type} (prev : Stream × Int × β) (n : Int) : Stream × Int × Int :=
  if prev.2.1 ≠ EOF then scanf_d prev.1 n else (prev.1, prev.2.1, n)

/-- The block that reads one line of the input file: nine reads, each after
the first skipped once `fileflag` is `EOF`; a field that is not read keeps
what it held; `cos_angle` is set after the first read. -/
def read_line {α : Type} [LinearOrderedField α] (g_incident_cosine : α)
    (s : Stream) (slab : AD_slab_type α) (nstreams : Int) :
    Stream × AD_slab_type α × Int :=
  let r1 := scanf_lf s slab.a
  let r2 := guarded_lf r1 slab.b
  let r3 := guarded_lf r2 slab.g
  let r4 := guarded_lf r3 slab.n_slab
  let r5 := guarded_lf r4 slab.n_top_slide
  let r6 := guarded_lf r5 slab.n_bottom_slide
  let r7 := guarded_lf r6 slab.b_top_slide
  let r8 := guarded_lf r7 slab.b_bottom_slide
  let r9 := guarded_d r8 nstreams
  (r9.1,
   { a := r1.2.2, b := r2.2.2, g := r3.2.2, phase_function := slab.phase_function,
     n_slab := r4.2.2, n_top_slide := r5.2.2, n_bottom_slide := r6.2.2,
     b_top_slide := r7.2.2, b_bottom_slide := r8.2.2, cos_angle := g_incident_cosine },
   r9.2.2)

/-! ## Calculating and printing one record (lines 362-383 and 405-424) -/

/-- The heading of the result table in human-readable mode. -/
def table_heading {α : Type} : List (Line α) :=
  [Line.text "UR1 = Total Reflection   for Normal  Illumination\n",
   Line.text "UT1 = Total Transmission for Normal  Illumination\n",
   Line.text "URU = Total Reflection   for Diffuse Illumination\n",
   Line.text "UTU = Total Transmission for Diffuse Illumination\n\n",
   Line.text "   UR1    \t   UT1    \t   URU    \t   UTU\n"]

/-- What one record leaves behind: the slab after the block, the lines
printed, the calls of `RT` (its arguments at the call) and the four values
R1, T1, URU, UTU at the end of the block. -/
structure Outcome (α : Type) where
  slab : AD_slab_type α
  out : List (Line α)
  rt_calls : List (Int × AD_slab_type α)
  reported : α × α × α × α

/-- The block `failed = validate_slab (...); R1 = failed; ... if (!failed)
RT (...); if (machine_readable_output) printf (...) else if (!failed) ...`,
which the source has once in the record loop and once in command-line mode. -/
def calculate_and_print {α : Type} [LT α] [LE α] [DecidableRel (LT.lt : α → α → Prop)]
    [DecidableRel (LE.le : α → α → Prop)] [OfNat α 0] [OfNat α 1] [OfNat α 10] [Neg α]
    [IntCast α] (env : Env α)
    (slab : AD_slab_type α) (nstreams : Int) (machine_readable_output : Int) : Outcome α :=
  let v := validate_slab slab nstreams machine_readable_output
  let failed : Int := v.2
  let R1 : α := (failed : α)
  let T1 : α := (failed : α)
  let URU : α := (failed : α)
  let UTU : α := (failed : α)
  let e := if failed = 0 then (env.RT nstreams slab, [(nstreams, slab)])
           else ((slab, R1, T1, URU, UTU), [])
  let r := e.1.2
  let printed : List (Line α) :=
    if machine_readable_output ≠ 0 then [Line.result r.1 r.2.1 r.2.2.1 r.2.2.2]
    else if failed = 0 then table_heading ++ [Line.result r.1 r.2.1 r.2.2.1 r.2.2.2]
    else []
  { slab := e.1.1, out := v.1 ++ printed, rt_calls := e.2, reported := r }

/-! ## File mode: the record loop (lines 332-385) -/

/-- The state of the record loop. -/
structure State (α : Type) where
  stdin : Stream
  slab : AD_slab_type α
  nstreams : Int
  out : List (Line α)
  rt_calls : List (Int × AD_slab_type α)

/-- One pass through the body of `while (feof (stdin) == 0)`. -/
def loop_body {α : Type} [LinearOrderedField α] (env : Env α) (g_incident_cosine : α)
    (machine_readable_output : Int) (st : State α) : State α :=
  let slab := { st.slab with phase_function := env.HENYEY_GREENSTEIN }
  let r := read_line g_incident_cosine st.stdin slab st.nstreams
  let c := calculate_and_print env r.2.1 r.2.2 machine_readable_output
  { stdin := r.1, slab := c.slab, nstreams := r.2.2,
    out := st.out ++ c.out, rt_calls := st.rt_calls ++ c.rt_calls }

/-- The loop `while (feof (stdin) == 0)` run for at most `fuel` passes: the
state reached, and whether the loop has been left. -/
def file_loop {α : Type} [LinearOrderedField α] (env : Env α) (g_incident_cosine : α)
    (machine_readable_output : Int) : Nat → State α → State α × Bool
  | 0, st => (st, decide (feof st.stdin ≠ 0))
  | fuel + 1, st =>
    if feof st.stdin = 0 then
      file_loop env g_incident_cosine machine_readable_output fuel
        (loop_body env g_incident_cosine machine_readable_output st)
    else (st, true)

/-! ## `main` (lines 192-429) -/

/-- What a run of `main` does: the exit status (`none` while the record loop
is still running after `fuel` passes), the file standard output was reopened
on, the lines printed on standard output and the calls of `RT`. -/
structure Run (α : Type) where
  status : Option Int
  out_name : Option String
  out : List (Line α)
  rt_calls : List (Int × AD_slab_type α)

/-- A run that leaves through `exit (code)` before anything is printed on
standard output. -/
def Run.exit {α : Type} (code : Int) : Run α :=
  { status := some code, out_name := none, out := [], rt_calls := [] }

/-- The name in `g_out_name` when the output is opened (lines 305-316):
with an input file other than `"-"` and no `-o`, the input name and `".rt"`. -/
def output_name (g_out_name : Option String) (argv0 : String) : Option String :=
  if argv0 ≠ "-" then
    if g_out_name = none then strdup_together (some argv0) (some ".rt") else g_out_name
  else g_out_name

/-- The slab of command-line mode (lines 391-400). -/
def command_line_slab {α : Type} [OfScientific α] (env : Env α) (l : Locals α) :
    AD_slab_type α :=
  let slab := env.slab0
  let slab := { slab with phase_function := env.HENYEY_GREENSTEIN }
  let slab := { slab with a := l.albedo }
  let slab := { slab with b := l.optical_thickness }
  let slab := { slab with g := l.anisotropy }
  let slab := { slab with n_slab := l.index_of_refraction }
  let slab := { slab with n_top_slide := l.index_of_slide1 }
  let slab := { slab with n_bottom_slide := l.index_of_slide2 }
  let slab := { slab with b_top_slide := 0.0 }
  let slab := { slab with b_bottom_slide := 0.0 }
  { slab with cos_angle := l.g_incident_cosine }

/-- File mode (lines 295-386) after the option loop, `files` being what is
left of `argv` (`argc >= 1` there). -/
def file_mode {α : Type} [LinearOrderedField α] (env : Env α) (fuel : Nat)
    (l : Locals α) (files : List String) : Run α :=
  match files with
  | [] => Run.exit 0
  | argv0 :: more =>
    if more.length + 1 > 1 then Run.exit 1
    else
      let input : Option (List Char) :=
        if argv0 ≠ "-" then env.open_read argv0 else some env.stdin
      match input with
      | none => Run.exit 1
      | some content =>
        let g_out_name := output_name l.g_out_name argv0
        let opened : Bool :=
          match g_out_name with
          | none => true
          | some name => env.open_write name
        if opened = false then Run.exit 1
        else
          let st0 : State α :=
            { stdin := { rest := content, eof := false }, slab := env.slab0,
              nstreams := l.nstreams, out := [], rt_calls := [] }
          let r := file_loop env l.g_incident_cosine l.machine_readable_output fuel st0
          { status := if r.2 then some 0 else none, out_name := g_out_name,
            out := r.1.out, rt_calls := r.1.rt_calls }

/-- Command-line mode (lines 387-427). -/
def command_line_mode {α : Type} [LT α] [LE α] [DecidableRel (LT.lt : α → α → Prop)]
    [DecidableRel (LE.le : α → α → Prop)] [OfNat α 0] [OfNat α 1] [OfNat α 10] [Neg α]
    [IntCast α] [OfScientific α] (env : Env α) (l : Locals α) : Run α :=
  let c := calculate_and_print env (command_line_slab env l) l.nstreams
    l.machine_readable_output
  { status := some 0, out_name := none, out := c.out, rt_calls := c.rt_calls }

/-- Embedding of `main`: `argc` is the argument count the program starts
with, `opts` the successive results of `my_getopt`, `files` the arguments left
after `argc -= optind; argv += optind`, `fuel` a bound on the passes of the
record loop. -/
def main {α : Type} [LinearOrderedField α] [FloorRing α] (env : Env α) (fuel : Nat)
    (argc : Int) (opts : List (Opt α)) (files : List String) : Run α :=
  if argc = 1 then Run.exit 0
  else
    match option_loop env Locals.init opts with
    | none => Run.exit 0
    | some l =>
      if files.length ≥ 1 then file_mode env fuel l files
      else command_line_mode env l

/-- The standard input of file mode given as a string. -/
def chars (s : String) : List Char := s.toList

/-- The option is one of `-a`, `-b`, `-g`, `-n`, `-q`. -/
def Opt.isParameter {α : Type} : Opt α → Bool
  | Opt.a _ => true
  | Opt.b _ => true
  | Opt.g _ => true
  | Opt.n _ => true
  | Opt.q _ => true
  | _ => false

/-! ## Sample inputs -/

/-- A sample environment over the rationals: an engine that returns fixed
values, no readable file, an empty standard input. -/
def sample_env : Env ℚ where
  RT := fun _ slab => (slab, 1 / 10, 2 / 10, 3 / 10, 4 / 10)
  cos := fun _ => 1
  HENYEY_GREENSTEIN := 1
  open_read := fun _ => none
  open_write := fun _ => true
  stdin := []
  slab0 :=
    { a := 0, b := 0, g := 0, phase_function := 0, n_slab := 0, n_top_slide := 0,
      n_bottom_slide := 0, b_top_slide := 0, b_bottom_slide := 0, cos_angle := 0 }

/-- A record with albedo 2, which `validate_slab` rejects with code -1. -/
def bad_albedo_slab : AD_slab_type ℚ :=
  { a := 2, b := 1, g := 0, phase_function := 1, n_slab := 1, n_top_slide := 1,
    n_bottom_slide := 1, b_top_slide := 0, b_bottom_slide := 0, cos_angle := 1 }

/-- The sample environment with the one-record input `0.5 1 0 1 1 1 0 0 4`
followed by a newline on standard input. -/
def one_record_env : Env ℚ :=
  { sample_env with stdin := chars "0.5 1 0 1 1 1 0 0 4\n" }

/-- The text of the one-record input: `0.5 1 0 1 1 1 0 0 4` and a newline. -/
def one_record_text : List Char := chars "0.5 1 0 1 1 1 0 0 4\n"

/-- The locals of `main` after the option loop of `ad -a nan`: `strtod`
converts `nan` to NaN, which `case 'a'` stores in `albedo`; the other locals
keep their initial values. -/
def nan_locals : Locals (CDouble ℚ) :=
  { (Locals.init : Locals (CDouble ℚ)) with albedo := CDouble.nan }

/-- A record with a NaN albedo and the optical thickness -1. -/
def nan_albedo_slab : AD_slab_type (CDouble ℚ) :=
  { a := CDouble.nan, b := -1, g := 0, phase_function := 1, n_slab := 1, n_top_slide := 1,
    n_bottom_slide := 1, b_top_slide := 0, b_bottom_slide := 0, cos_angle := 1 }

/-- Two reads have left the same stream and the same return value. -/
def SamePosition {β γ : Type} (p : Stream × Int × β) (q : Stream × Int × γ) : Prop :=
  p.1 = q.1 ∧ p.2.1 = q.2.1

/-! ## Lemmas on `validate_slab` -/

theorem c_rem_four_iff (n : Int) (h : 4 ≤ n) : c_rem n 4 = 0 ↔ n % 4 = 0 := by
  unfold c_rem
  rw [Int.tmod_eq_emod (by omega) (by omega)]

theorem quadrature_check_iff (n : Int) :
    ¬ (n < 4 ∨ c_rem n 4 ≠ 0) ↔ (4 ≤ n ∧ n % 4 = 0) := by
  constructor
  · intro h
    have h4 : 4 ≤ n := by
      by_contra hc
      exact h (Or.inl (by omega))
    refine ⟨h4, ?_⟩
    by_contra hc
    exact h (Or.inr (fun h0 => hc ((c_rem_four_iff n h4).1 h0)))
  · rintro ⟨h4, hm⟩ h
    rcases h with h | h
    · omega
    · exact h ((c_rem_four_iff n h4).2 hm)

/-- The code returned by `validate_slab`, as the chain of tests alone. -/
theorem validate_slab_code {α : Type} [LT α] [LE α] [DecidableRel (LT.lt : α → α → Prop)]
    [DecidableRel (LE.le : α → α → Prop)] [OfNat α 0] [OfNat α 1] [OfNat α 10] [Neg α]
    (slab : AD_slab_type α) (nstreams machine : Int) :
    (validate_slab slab nstreams machine).2 =
      if slab.a < 0 ∨ slab.a > 1 then -1
      else if slab.b < 0 then -2
      else if slab.g ≤ -1 ∨ slab.g ≥ 1 then -3
      else if slab.n_slab < 0 ∨ slab.n_slab > 10 then -4
      else if slab.n_top_slide < 1 ∨ slab.n_top_slide > 10 then -5
      else if slab.n_bottom_slide < 1 ∨ slab.n_bottom_slide > 10 then -6
      else if slab.b_top_slide < 0 ∨ slab.b_top_slide > 10 then -7
      else if slab.b_bottom_slide < 0 ∨ slab.b_bottom_slide > 10 then -8
      else if nstreams < 4 ∨ c_rem nstreams 4 ≠ 0 then -9
      else 0 := by
  simp only [validate_slab, apply_ite Prod.snd]

theorem range_check_iff {α : Type} [LinearOrderedField α] (x lo hi : α) :
    ¬ (x < lo ∨ x > hi) ↔ (lo ≤ x ∧ x ≤ hi) := by
  rw [not_or, not_lt, gt_iff_lt, not_lt]

theorem open_range_check_iff {α : Type} [LinearOrderedField α] (x lo hi : α) :
    ¬ (x ≤ lo ∨ x ≥ hi) ↔ (lo < x ∧ x < hi) := by
  rw [not_or, not_le, ge_iff_le, not_le]

/-- The code of `validate_slab` in terms of the nine checks. -/
theorem validate_slab_code_checks {α : Type} [LinearOrderedField α]
    (slab : AD_slab_type α) (nstreams machine : Int) :
    (validate_slab slab nstreams machine).2 =
      if ¬ check_ok slab nstreams 1 then -1
      else if ¬ check_ok slab nstreams 2 then -2
      else if ¬ check_ok slab nstreams 3 then -3
      else if ¬ check_ok slab nstreams 4 then -4
      else if ¬ check_ok slab nstreams 5 then -5
      else if ¬ check_ok slab nstreams 6 then -6
      else if ¬ check_ok slab nstreams 7 then -7
      else if ¬ check_ok slab nstreams 8 then -8
      else if ¬ check_ok slab nstreams 9 then -9
      else 0 := by
  rw [validate_slab_code]
  have e1 := range_check_iff slab.a 0 1
  have e2 : ¬ (slab.b < 0) ↔ 0 ≤ slab.b := not_lt
  have e3 := open_range_check_iff slab.g (-1) 1
  have e4 := range_check_iff slab.n_slab 0 10
  have e5 := range_check_iff slab.n_top_slide 1 10
  have e6 := range_check_iff slab.n_bottom_slide 1 10
  have e7 := range_check_iff slab.b_top_slide 0 10
  have e8 := range_check_iff slab.b_bottom_slide 0 10
  have e9 := quadrature_check_iff nstreams
  simp only [check_ok, ← e1, ← e2, ← e3, ← e4, ← e5, ← e6, ← e7, ← e8, ← e9, not_not]

theorem inBounds_iff_checks {α : Type} [LinearOrderedField α]
    (slab : AD_slab_type α) (nstreams : Int) :
    InBounds slab nstreams ↔
      (check_ok slab nstreams 1 ∧ check_ok slab nstreams 2 ∧ check_ok slab nstreams 3 ∧
       check_ok slab nstreams 4 ∧ check_ok slab nstreams 5 ∧ check_ok slab nstreams 6 ∧
       check_ok slab nstreams 7 ∧ check_ok slab nstreams 8 ∧ check_ok slab nstreams 9) := by
  simp only [InBounds, check_ok]

/-- The code is 0 exactly on the records within the bounds. -/
theorem validate_slab_eq_zero_iff {α : Type} [LinearOrderedField α]
    (slab : AD_slab_type α) (nstreams machine : Int) :
    (validate_slab slab nstreams machine).2 = 0 ↔ InBounds slab nstreams := by
  rw [validate_slab_code_checks, inBounds_iff_checks]
  split_ifs <;> simp_all

/-- The code is 0 or one of -1, ..., -9. -/
theorem validate_slab_code_range {α : Type} [LT α] [LE α] [DecidableRel (LT.lt : α → α → Prop)]
    [DecidableRel (LE.le : α → α → Prop)] [OfNat α 0] [OfNat α 1] [OfNat α 10] [Neg α]
    (slab : AD_slab_type α) (nstreams machine : Int) :
    (validate_slab slab nstreams machine).2 = 0 ∨
      (-9 ≤ (validate_slab slab nstreams machine).2 ∧
        (validate_slab slab nstreams machine).2 ≤ -1) := by
  rw [validate_slab_code]
  split_ifs <;> simp

/-- C1: `validate_slab` returns 0 if and only if all the range bounds hold
(0 <= a <= 1, b >= 0, -1 < g < 1, 0 <= n_slab <= 10, both slide indices in
[1,10], both slide optical thicknesses in [0,10], nstreams >= 4 and a multiple
of 4), whatever the machine flag; an nstreams that is not a positive multiple
of 4 is rejected. -/
theorem validate_slab_accepts_iff_in_bounds {α : Type} [LinearOrderedField α]
    (slab : AD_slab_type α) (nstreams machine : Int) :
    ((validate_slab slab nstreams machine).2 = 0 ↔
      ((0 ≤ slab.a ∧ slab.a ≤ 1) ∧ 0 ≤ slab.b ∧ (-1 < slab.g ∧ slab.g < 1) ∧
       (0 ≤ slab.n_slab ∧ slab.n_slab ≤ 10) ∧
       (1 ≤ slab.n_top_slide ∧ slab.n_top_slide ≤ 10) ∧
       (1 ≤ slab.n_bottom_slide ∧ slab.n_bottom_slide ≤ 10) ∧
       (0 ≤ slab.b_top_slide ∧ slab.b_top_slide ≤ 10) ∧
       (0 ≤ slab.b_bottom_slide ∧ slab.b_bottom_slide ≤ 10) ∧
       4 ≤ nstreams ∧ nstreams % 4 = 0)) ∧
    (¬ (0 < nstreams ∧ nstreams % 4 = 0) →
      (validate_slab slab nstreams machine).2 ≠ 0) := by
  refine ⟨validate_slab_eq_zero_iff slab nstreams machine, ?_⟩
  intro hn h0
  have hb := (validate_slab_eq_zero_iff slab nstreams machine).1 h0
  obtain ⟨_, _, _, _, _, _, _, _, h4, hm⟩ := hb
  exact hn ⟨by omega, hm⟩

theorem forall_below_iff (P : Nat → Prop) (k : Nat) (hk : k ≤ 9) :
    (∀ j, 1 ≤ j → j < k → P j) ↔
      ((1 < k → P 1) ∧ (2 < k → P 2) ∧ (3 < k → P 3) ∧ (4 < k → P 4) ∧
       (5 < k → P 5) ∧ (6 < k → P 6) ∧ (7 < k → P 7) ∧ (8 < k → P 8)) := by
  constructor
  · intro h
    exact ⟨h 1 (by omega), h 2 (by omega), h 3 (by omega), h 4 (by omega),
      h 5 (by omega), h 6 (by omega), h 7 (by omega), h 8 (by omega)⟩
  · rintro ⟨h1, h2, h3, h4, h5, h6, h7, h8⟩ j hj1 hjk
    have hj9 : j < 9 := by omega
    interval_cases j
    · exact h1 hjk
    · exact h2 hjk
    · exact h3 hjk
    · exact h4 hjk
    · exact h5 hjk
    · exact h6 hjk
    · exact h7 hjk
    · exact h8 hjk

/-- A chain of nine tests that returns `-k` at the first failing test `k`
returns `-k` exactly when tests 1 to k-1 pass and test k fails. -/
theorem first_failure_code (P : Nat → Prop) [DecidablePred P] (k : Nat)
    (hk1 : 1 ≤ k) (hk9 : k ≤ 9) :
    ((if ¬ P 1 then -1
      else if ¬ P 2 then -2
      else if ¬ P 3 then -3
      else if ¬ P 4 then -4
      else if ¬ P 5 then -5
      else if ¬ P 6 then -6
      else if ¬ P 7 then -7
      else if ¬ P 8 then -8
      else if ¬ P 9 then -9
      else 0 : Int) = -(k : Int)) ↔
      ((∀ j, 1 ≤ j → j < k → P j) ∧ ¬ P k) := by
  rw [forall_below_iff P k hk9]
  by_cases h1 : P 1
  swap
  · simp only [h1, not_false_eq_true, if_true]
    interval_cases k <;> simp_all
  simp only [h1, not_true_eq_false, if_false]
  by_cases h2 : P 2
  swap
  · simp only [h2, not_false_eq_true, if_true]
    interval_cases k <;> simp_all
  simp only [h2, not_true_eq_false, if_false]
  by_cases h3 : P 3
  swap
  · simp only [h3, not_false_eq_true, if_true]
    interval_cases k <;> simp_all
  simp only [h3, not_true_eq_false, if_false]
  by_cases h4 : P 4
  swap
  · simp only [h4, not_false_eq_true, if_true]
    interval_cases k <;> simp_all
  simp only [h4, not_true_eq_false, if_false]
  by_cases h5 : P 5
  swap
  · simp only [h5, not_false_eq_true, if_true]
    interval_cases k <;> simp_all
  simp only [h5, not_true_eq_false, if_false]
  by_cases h6 : P 6
  swap
  · simp only [h6, not_false_eq_true, if_true]
    interval_cases k <;> simp_all
  simp only [h6, not_true_eq_false, if_false]
  by_cases h7 : P 7
  swap
  · simp only [h7, not_false_eq_true, if_true]
    interval_cases k <;> simp_all
  simp only [h7, not_true_eq_false, if_false]
  by_cases h8 : P 8
  swap
  · simp only [h8, not_false_eq_true, if_true]
    interval_cases k <;> simp_all
  simp only [h8, not_true_eq_false, if_false]
  by_cases h9 : P 9
  swap
  · simp only [h9, not_false_eq_true, if_true]
    interval_cases k <;> simp_all
  simp only [h9, not_true_eq_false, if_false]
  interval_cases k <;> simp_all

/-- For fields in a linearly ordered field (real values, no NaN) the tests of
`validate_slab` are the negations of the range bounds, so the code is -k
exactly when bounds 1 to k-1 hold and bound k does not. -/
theorem validate_slab_first_failing_check {α : Type} [LinearOrderedField α]
    (slab : AD_slab_type α) (nstreams machine : Int) :
    ((validate_slab slab nstreams machine).2 = 0 ∨
      (-9 ≤ (validate_slab slab nstreams machine).2 ∧
        (validate_slab slab nstreams machine).2 ≤ -1)) ∧
    (∀ k : Nat, 1 ≤ k → k ≤ 9 →
      ((validate_slab slab nstreams machine).2 = -(k : Int) ↔
        ((∀ j, 1 ≤ j → j < k → check_ok slab nstreams j) ∧ ¬ check_ok slab nstreams k))) ∧
    (∀ machine2 : Int,
      (validate_slab slab nstreams machine2).2 = (validate_slab slab nstreams machine).2) := by
  refine ⟨validate_slab_code_range slab nstreams machine, ?_, ?_⟩
  · intro k hk1 hk9
    rw [validate_slab_code_checks]
    exact first_failure_code (check_ok slab nstreams) k hk1 hk9
  · intro machine2
    rw [validate_slab_code, validate_slab_code]

/-- The code of `validate_slab` in terms of its own nine tests. -/
theorem validate_slab_code_tests {α : Type} [LT α] [LE α] [DecidableRel (LT.lt : α → α → Prop)]
    [DecidableRel (LE.le : α → α → Prop)] [OfNat α 0] [OfNat α 1] [OfNat α 10] [Neg α]
    (slab : AD_slab_type α) (nstreams machine : Int) :
    (validate_slab slab nstreams machine).2 =
      if ¬ ¬ test_fires slab nstreams 1 then -1
      else if ¬ ¬ test_fires slab nstreams 2 then -2
      else if ¬ ¬ test_fires slab nstreams 3 then -3
      else if ¬ ¬ test_fires slab nstreams 4 then -4
      else if ¬ ¬ test_fires slab nstreams 5 then -5
      else if ¬ ¬ test_fires slab nstreams 6 then -6
      else if ¬ ¬ test_fires slab nstreams 7 then -7
      else if ¬ ¬ test_fires slab nstreams 8 then -8
      else if ¬ ¬ test_fires slab nstreams 9 then -9
      else 0 := by
  rw [validate_slab_code]
  simp only [test_fires, not_not]

/-- A chain of nine tests that returns `-k` at the first failing test `k`
returns 0 exactly when no test fails. -/
theorem no_failure_code (P : Nat → Prop) [DecidablePred P] :
    ((if ¬ P 1 then -1
      else if ¬ P 2 then -2
      else if ¬ P 3 then -3
      else if ¬ P 4 then -4
      else if ¬ P 5 then -5
      else if ¬ P 6 then -6
      else if ¬ P 7 then -7
      else if ¬ P 8 then -8
      else if ¬ P 9 then -9
      else 0 : Int) = 0) ↔ ∀ j, 1 ≤ j → j ≤ 9 → P j := by
  constructor
  · intro h
    by_cases h1 : P 1
    swap
    · rw [if_pos h1] at h
      exact absurd h (by decide)
    rw [if_neg (not_not.2 h1)] at h
    by_cases h2 : P 2
    swap
    · rw [if_pos h2] at h
      exact absurd h (by decide)
    rw [if_neg (not_not.2 h2)] at h
    by_cases h3 : P 3
    swap
    · rw [if_pos h3] at h
      exact absurd h (by decide)
    rw [if_neg (not_not.2 h3)] at h
    by_cases h4 : P 4
    swap
    · rw [if_pos h4] at h
      exact absurd h (by decide)
    rw [if_neg (not_not.2 h4)] at h
    by_cases h5 : P 5
    swap
    · rw [if_pos h5] at h
      exact absurd h (by decide)
    rw [if_neg (not_not.2 h5)] at h
    by_cases h6 : P 6
    swap
    · rw [if_pos h6] at h
      exact absurd h (by decide)
    rw [if_neg (not_not.2 h6)] at h
    by_cases h7 : P 7
    swap
    · rw [if_pos h7] at h
      exact absurd h (by decide)
    rw [if_neg (not_not.2 h7)] at h
    by_cases h8 : P 8
    swap
    · rw [if_pos h8] at h
      exact absurd h (by decide)
    rw [if_neg (not_not.2 h8)] at h
    by_cases h9 : P 9
    swap
    · rw [if_pos h9] at h
      exact absurd h (by decide)
    rw [if_neg (not_not.2 h9)] at h
    intro j hj1 hj9
    interval_cases j <;> assumption
  · intro h
    rw [if_neg (not_not.2 (h 1 (by decide) (by decide))),
      if_neg (not_not.2 (h 2 (by decide) (by decide))),
      if_neg (not_not.2 (h 3 (by decide) (by decide))),
      if_neg (not_not.2 (h 4 (by decide) (by decide))),
      if_neg (not_not.2 (h 5 (by decide) (by decide))),
      if_neg (not_not.2 (h 6 (by decide) (by decide))),
      if_neg (not_not.2 (h 7 (by decide) (by decide))),
      if_neg (not_not.2 (h 8 (by decide) (by decide))),
      if_neg (not_not.2 (h 9 (by decide) (by decide)))]

/-- In a linearly ordered field the test of a check is the negation of its bound. -/
theorem test_fires_iff_not_check_ok {α : Type} [LinearOrderedField α]
    (slab : AD_slab_type α) (nstreams : Int) (k : Nat) (hk1 : 1 ≤ k) (hk9 : k ≤ 9) :
    ¬ test_fires slab nstreams k ↔ check_ok slab nstreams k := by
  interval_cases k
  · exact range_check_iff slab.a 0 1
  · exact not_lt
  · exact open_range_check_iff slab.g (-1) 1
  · exact range_check_iff slab.n_slab 0 10
  · exact range_check_iff slab.n_top_slide 1 10
  · exact range_check_iff slab.n_bottom_slide 1 10
  · exact range_check_iff slab.b_top_slide 0 10
  · exact range_check_iff slab.b_bottom_slide 0 10
  · exact quadrature_check_iff nstreams

/-- No comparison with NaN holds, so a test of `validate_slab` on a NaN field
does not fire: checks 1 to 8 pass on a record whose fields are all NaN. -/
theorem test_fires_nan {α : Type} [LT α] [LE α] [OfNat α 0] [OfNat α 1] [OfNat α 10] [Neg α]
    (p : Int) (c : CDouble α) (nstreams : Int) (k : Nat) (hk1 : 1 ≤ k) (hk8 : k ≤ 8) :
    ¬ test_fires
      ({ a := CDouble.nan, b := CDouble.nan, g := CDouble.nan, phase_function := p,
         n_slab := CDouble.nan, n_top_slide := CDouble.nan, n_bottom_slide := CDouble.nan,
         b_top_slide := CDouble.nan, b_bottom_slide := CDouble.nan, cos_angle := c } :
        AD_slab_type (CDouble α)) nstreams k := by
  interval_cases k
  · rintro (h | h) <;> exact h
  · exact fun h => h
  · rintro (h | h) <;> exact h
  · rintro (h | h) <;> exact h
  · rintro (h | h) <;> exact h
  · rintro (h | h) <;> exact h
  · rintro (h | h) <;> exact h
  · rintro (h | h) <;> exact h

/-- C9: for every input, NaN and infinite fields included, the value
`validate_slab` returns is 0 or one of -1, ..., -9; for k from 1 to 9 it is -k
exactly when the tests of checks 1 to k-1 do not fire (these checks pass) and
the test of check k fires (check k fails), the tests being those of the source
in its order (albedo, optical thickness, anisotropy, slab index, top slide
index, bottom slide index, top and bottom slide optical thickness, quadrature
order); it is 0 exactly when no test fires; and it is the same for every
value of the machine flag. -/
theorem validate_slab_first_firing_test {α : Type} [LT α] [LE α] [DecidableRel (LT.lt : α → α → Prop)]
    [DecidableRel (LE.le : α → α → Prop)] [OfNat α 0] [OfNat α 1] [OfNat α 10] [Neg α]
    (slab : AD_slab_type α) (nstreams machine : Int) :
    ((validate_slab slab nstreams machine).2 = 0 ∨
      (-9 ≤ (validate_slab slab nstreams machine).2 ∧
        (validate_slab slab nstreams machine).2 ≤ -1)) ∧
    (∀ k : Nat, 1 ≤ k → k ≤ 9 →
      ((validate_slab slab nstreams machine).2 = -(k : Int) ↔
        ((∀ j, 1 ≤ j → j < k → ¬ test_fires slab nstreams j) ∧
          test_fires slab nstreams k))) ∧
    ((validate_slab slab nstreams machine).2 = 0 ↔
      ∀ j, 1 ≤ j → j ≤ 9 → ¬ test_fires slab nstreams j) ∧
    (∀ machine2 : Int,
      (validate_slab slab nstreams machine2).2 = (validate_slab slab nstreams machine).2) := by
  refine ⟨validate_slab_code_range slab nstreams machine, ?_, ?_, ?_⟩
  · intro k hk1 hk9
    rw [validate_slab_code_tests,
      first_failure_code (fun j => ¬ test_fires slab nstreams j) k hk1 hk9, not_not]
  · rw [validate_slab_code_tests]
    exact no_failure_code (fun j => ¬ test_fires slab nstreams j)
  · intro machine2
    rw [validate_slab_code, validate_slab_code]

/-- Witness of C9 with a NaN field: on the record with albedo NaN and optical
thickness -1 the albedo test does not fire, the optical-thickness test does,
and the code is -2. -/
theorem validate_slab_first_firing_test_nan :
    ¬ test_fires nan_albedo_slab 4 1 ∧ test_fires nan_albedo_slab 4 2 ∧
    (validate_slab nan_albedo_slab 4 0).2 = -2 := by
  have h1 : ¬ test_fires nan_albedo_slab 4 1 := by decide
  have h2 : test_fires nan_albedo_slab 4 2 := by decide
  refine ⟨h1, h2, ?_⟩
  have h := ((validate_slab_first_firing_test nan_albedo_slab 4 0).2.1 2 (by decide)
    (by decide)).2 ⟨fun j hj1 hj2 => by
      have hj : j = 1 := by omega
      rw [hj]
      exact h1, h2⟩
  simpa using h

/-! ## Calculating and printing one record -/

theorem calculate_and_print_rt_calls {α : Type} [LT α] [LE α] [DecidableRel (LT.lt : α → α → Prop)]
    [DecidableRel (LE.le : α → α → Prop)] [OfNat α 0] [OfNat α 1] [OfNat α 10] [Neg α]
    [IntCast α] (env : Env α)
    (slab : AD_slab_type α) (nstreams machine : Int) :
    (calculate_and_print env slab nstreams machine).rt_calls =
      if (validate_slab slab nstreams machine).2 = 0 then [(nstreams, slab)] else [] := by
  unfold calculate_and_print
  by_cases h : (validate_slab slab nstreams machine).2 = 0 <;> simp [h]

theorem calculate_and_print_calls_in_bounds {α : Type} [LinearOrderedField α] (env : Env α)
    (slab : AD_slab_type α) (nstreams machine : Int) :
    ∀ p ∈ (calculate_and_print env slab nstreams machine).rt_calls, InBounds p.2 p.1 := by
  intro p hp
  rw [calculate_and_print_rt_calls] at hp
  by_cases h : (validate_slab slab nstreams machine).2 = 0
  · rw [if_pos h, List.mem_singleton] at hp
    subst hp
    exact (validate_slab_eq_zero_iff slab nstreams machine).1 h
  · rw [if_neg h] at hp
    exact absurd hp (List.not_mem_nil p)

theorem loop_body_rt_calls {α : Type} [LinearOrderedField α] (env : Env α) (g : α)
    (machine : Int) (st : State α) :
    (loop_body env g machine st).rt_calls =
      st.rt_calls ++
        (calculate_and_print env
          (read_line g st.stdin { st.slab with phase_function := env.HENYEY_GREENSTEIN }
            st.nstreams).2.1
          (read_line g st.stdin { st.slab with phase_function := env.HENYEY_GREENSTEIN }
            st.nstreams).2.2 machine).rt_calls := rfl

/-- An invariant of the calls of `RT` is kept by the record loop. -/
theorem file_loop_calls {α : Type} [LinearOrderedField α] (env : Env α) (g : α)
    (machine : Int) (Q : Int × AD_slab_type α → Prop)
    (hQ : ∀ (slab : AD_slab_type α) (n : Int),
      ∀ p ∈ (calculate_and_print env { slab with cos_angle := g } n machine).rt_calls, Q p)
    (hread : ∀ (s : Stream) (slab : AD_slab_type α) (n : Int),
      (read_line g s slab n).2.1.cos_angle = g) :
    ∀ (fuel : Nat) (st : State α), (∀ p ∈ st.rt_calls, Q p) →
      ∀ p ∈ (file_loop env g machine fuel st).1.rt_calls, Q p := by
  intro fuel
  induction fuel with
  | zero => intro st h; exact h
  | succ n ih =>
    intro st h
    unfold file_loop
    by_cases he : feof st.stdin = 0
    · rw [if_pos he]
      apply ih
      intro p hp
      rw [loop_body_rt_calls, List.mem_append] at hp
      rcases hp with hp | hp
      · exact h p hp
      · have hc := hread st.stdin { st.slab with phase_function := env.HENYEY_GREENSTEIN }
          st.nstreams
        have := hQ (read_line g st.stdin
          { st.slab with phase_function := env.HENYEY_GREENSTEIN } st.nstreams).2.1
          (read_line g st.stdin
          { st.slab with phase_function := env.HENYEY_GREENSTEIN } st.nstreams).2.2 p
        rw [← hc] at this
        exact this hp
    · rw [if_neg he]
      exact h

theorem read_line_cos_angle {α : Type} [LinearOrderedField α] (g : α) (s : Stream)
    (slab : AD_slab_type α) (n : Int) : (read_line g s slab n).2.1.cos_angle = g := rfl

/-- The calls of `RT` in file mode are those of the record loop started on the
content of the input. -/
theorem file_mode_calls {α : Type} [LinearOrderedField α] (env : Env α) (fuel : Nat)
    (l : Locals α) (files : List String) :
    ∀ p ∈ (file_mode env fuel l files).rt_calls, ∃ content : List Char,
      p ∈ (file_loop env l.g_incident_cosine l.machine_readable_output fuel
        { stdin := { rest := content, eof := false }, slab := env.slab0,
          nstreams := l.nstreams, out := [], rt_calls := [] }).1.rt_calls := by
  intro p hp
  unfold file_mode at hp
  cases files with
  | nil => exact absurd hp (List.not_mem_nil p)
  | cons argv0 more =>
    dsimp only at hp
    by_cases h3 : more.length + 1 > 1
    · rw [if_pos h3] at hp
      exact absurd hp (List.not_mem_nil p)
    rw [if_neg h3] at hp
    generalize (if argv0 ≠ "-" then env.open_read argv0 else some env.stdin) = input at hp
    cases input with
    | none => exact absurd hp (List.not_mem_nil p)
    | some content =>
      dsimp only at hp
      split_ifs at hp with h4 h5
      all_goals first
        | exact absurd hp (List.not_mem_nil p)
        | exact ⟨content, hp⟩

/-- An invariant of the calls of `RT` that holds for one record with the
incident cosine the option loop leaves holds for all calls `main` makes. -/
theorem main_calls {α : Type} [LinearOrderedField α] [FloorRing α] (env : Env α)
    (Q : Locals α → Int × AD_slab_type α → Prop)
    (hQ : ∀ (l : Locals α) (slab : AD_slab_type α) (n : Int),
      ∀ p ∈ (calculate_and_print env { slab with cos_angle := l.g_incident_cosine } n
        l.machine_readable_output).rt_calls, Q l p)
    (fuel : Nat) (argc : Int) (opts : List (Opt α)) (files : List String) :
    ∀ p ∈ (main env fuel argc opts files).rt_calls,
      ∃ l, option_loop env Locals.init opts = some l ∧ Q l p := by
  intro p hp
  unfold main at hp
  by_cases h1 : argc = 1
  · rw [if_pos h1] at hp
    exact absurd hp (List.not_mem_nil p)
  rw [if_neg h1] at hp
  cases hl : option_loop env Locals.init opts with
  | none =>
    rw [hl] at hp
    exact absurd hp (List.not_mem_nil p)
  | some l =>
    rw [hl] at hp
    refine ⟨l, rfl, ?_⟩
    simp only at hp
    by_cases h2 : files.length ≥ 1
    · rw [if_pos h2] at hp
      obtain ⟨content, hc⟩ := file_mode_calls env fuel l files p hp
      exact file_loop_calls env l.g_incident_cosine l.machine_readable_output (Q l)
        (hQ l) (read_line_cos_angle l.g_incident_cosine) fuel _
        (fun q hq => absurd hq (List.not_mem_nil q)) p hc
    · rw [if_neg h2] at hp
      exact hQ l (command_line_slab env l) l.nstreams p hp

/-- For fields in a linearly ordered field (real values, no NaN): in file
mode and in command-line mode `RT` is called once, with the record just
validated, when `validate_slab` returns 0 for it and not at all otherwise, and
every (nstreams, slab) pair that reaches `RT` in a run of `main` is within the
range bounds. -/
theorem RT_called_iff_validated {α : Type} [LinearOrderedField α] [FloorRing α]
    (env : Env α) :
    (∀ (slab : AD_slab_type α) (nstreams machine : Int),
      (calculate_and_print env slab nstreams machine).rt_calls =
        if (validate_slab slab nstreams machine).2 = 0 then [(nstreams, slab)] else []) ∧
    (∀ (g : α) (machine : Int) (st : State α),
      (loop_body env g machine st).rt_calls =
        st.rt_calls ++
          (calculate_and_print env
            (read_line g st.stdin { st.slab with phase_function := env.HENYEY_GREENSTEIN }
              st.nstreams).2.1
            (read_line g st.stdin { st.slab with phase_function := env.HENYEY_GREENSTEIN }
              st.nstreams).2.2 machine).rt_calls) ∧
    (∀ l : Locals α,
      (command_line_mode env l).rt_calls =
        (calculate_and_print env (command_line_slab env l) l.nstreams
          l.machine_readable_output).rt_calls) ∧
    (∀ (fuel : Nat) (argc : Int) (opts : List (Opt α)) (files : List String),
      ∀ p ∈ (main env fuel argc opts files).rt_calls,
        InBounds p.2 p.1 ∧ ∀ machine : Int, (validate_slab p.2 p.1 machine).2 = 0) := by
  refine ⟨calculate_and_print_rt_calls env, fun g machine st => rfl, fun l => rfl, ?_⟩
  intro fuel argc opts files p hp
  obtain ⟨l, _, h⟩ := main_calls env (fun _ q => InBounds q.2 q.1)
    (fun l slab n => calculate_and_print_calls_in_bounds env _ n _) fuel argc opts files p hp
  exact ⟨h, fun machine => (validate_slab_eq_zero_iff p.2 p.1 machine).2 h⟩

/-- C2 (what the code does): for every record, NaN fields included, the block
of lines 362-369 and 405-412 calls `RT` once, with that record, when
`validate_slab` returns 0 and not at all otherwise; but `validate_slab`
returns 0 on a NaN field, since no comparison with NaN holds: after
`ad -a nan` command-line mode builds the record with albedo NaN,
`validate_slab` returns 0 on it for every machine flag, `RT` is called with
it, and that record is not within the range bounds (0 <= a <= 1 fails). -/
theorem RT_called_on_nan_albedo (env : Env (CDouble ℚ)) (machine : Int) :
    (∀ (slab : AD_slab_type (CDouble ℚ)) (nstreams m : Int),
      (calculate_and_print env slab nstreams m).rt_calls =
        if (validate_slab slab nstreams m).2 = 0 then [(nstreams, slab)] else []) ∧
    (command_line_slab env nan_locals).a = CDouble.nan ∧
    (validate_slab (command_line_slab env nan_locals) 24 machine).2 = 0 ∧
    (command_line_mode env { nan_locals with machine_readable_output := machine }).rt_calls =
      [(24, command_line_slab env nan_locals)] ∧
    ¬ (0 ≤ (command_line_slab env nan_locals).a ∧ (command_line_slab env nan_locals).a ≤ 1) ∧
    ¬ InBounds (command_line_slab env nan_locals) 24 := by
  have hv : (validate_slab (command_line_slab env nan_locals) 24 machine).2 = 0 := by
    rw [validate_slab_code]
    dsimp only [command_line_slab, nan_locals, Locals.init]
    decide!
  refine ⟨calculate_and_print_rt_calls env, rfl, hv, ?_, fun h => h.1, fun h => h.1.1⟩
  unfold command_line_mode
  dsimp only
  rw [calculate_and_print_rt_calls]
  exact if_pos hv

theorem mem_of_mem_ite_nil {β : Type} (c : Prop) [Decidable c] (L : List β) (x : β)
    (h : x ∈ (if c then L else [])) : x ∈ L := by
  by_cases hc : c
  · rwa [if_pos hc] at h
  · rw [if_neg hc] at h
    exact absurd h (List.not_mem_nil x)

/-- What `validate_slab` prints is never a result line nor a line of the table heading. -/
theorem validate_slab_messages {α : Type} [LinearOrderedField α]
    (slab : AD_slab_type α) (nstreams machine : Int) :
    ∀ line ∈ (validate_slab slab nstreams machine).1,
      line.isResult = false ∧ line ∉ (table_heading : List (Line α)) := by
  intro line hl
  unfold validate_slab at hl
  by_cases h1 : slab.a < 0 ∨ slab.a > 1
  · rw [if_pos h1] at hl
    have hm := mem_of_mem_ite_nil _ _ _ hl
    simp only [List.mem_cons, List.mem_singleton, List.not_mem_nil, or_false] at hm
    subst hm
    simp [Line.isResult, table_heading]
  rw [if_neg h1] at hl
  by_cases h2 : slab.b < 0
  · rw [if_pos h2] at hl
    have hm := mem_of_mem_ite_nil _ _ _ hl
    simp only [List.mem_cons, List.mem_singleton, List.not_mem_nil, or_false] at hm
    subst hm
    simp [Line.isResult, table_heading]
  rw [if_neg h2] at hl
  by_cases h3 : slab.g ≤ -1 ∨ slab.g ≥ 1
  · rw [if_pos h3] at hl
    have hm := mem_of_mem_ite_nil _ _ _ hl
    simp only [List.mem_cons, List.mem_singleton, List.not_mem_nil, or_false] at hm
    subst hm
    simp [Line.isResult, table_heading]
  rw [if_neg h3] at hl
  by_cases h4 : slab.n_slab < 0 ∨ slab.n_slab > 10
  · rw [if_pos h4] at hl
    have hm := mem_of_mem_ite_nil _ _ _ hl
    simp only [List.mem_cons, List.mem_singleton, List.not_mem_nil, or_false] at hm
    subst hm
    simp [Line.isResult, table_heading]
  rw [if_neg h4] at hl
  by_cases h5 : slab.n_top_slide < 1 ∨ slab.n_top_slide > 10
  · rw [if_pos h5] at hl
    have hm := mem_of_mem_ite_nil _ _ _ hl
    simp only [List.mem_cons, List.mem_singleton, List.not_mem_nil, or_false] at hm
    subst hm
    simp [Line.isResult, table_heading]
  rw [if_neg h5] at hl
  by_cases h6 : slab.n_bottom_slide < 1 ∨ slab.n_bottom_slide > 10
  · rw [if_pos h6] at hl
    have hm := mem_of_mem_ite_nil _ _ _ hl
    simp only [List.mem_cons, List.mem_singleton, List.not_mem_nil, or_false] at hm
    subst hm
    simp [Line.isResult, table_heading]
  rw [if_neg h6] at hl
  by_cases h7 : slab.b_top_slide < 0 ∨ slab.b_top_slide > 10
  · rw [if_pos h7] at hl
    have hm := mem_of_mem_ite_nil _ _ _ hl
    simp only [List.mem_cons, List.mem_singleton, List.not_mem_nil, or_false] at hm
    subst hm
    simp [Line.isResult, table_heading]
  rw [if_neg h7] at hl
  by_cases h8 : slab.b_bottom_slide < 0 ∨ slab.b_bottom_slide > 10
  · rw [if_pos h8] at hl
    have hm := mem_of_mem_ite_nil _ _ _ hl
    simp only [List.mem_cons, List.mem_singleton, List.not_mem_nil, or_false] at hm
    subst hm
    simp [Line.isResult, table_heading]
  rw [if_neg h8] at hl
  by_cases h9 : nstreams < 4 ∨ c_rem nstreams 4 ≠ 0
  · rw [if_pos h9] at hl
    have hm := mem_of_mem_ite_nil _ _ _ hl
    simp only [List.mem_cons, List.mem_singleton, List.not_mem_nil, or_false] at hm
    rcases hm with hm | hm <;> subst hm <;> simp [Line.isResult, table_heading]
  rw [if_neg h9] at hl
  exact absurd hl (List.not_mem_nil line)

/-- C3: for a record that fails validation the four reported values all equal
the code `validate_slab` returns, an integer from -9 to -1, so they are
negative; `RT` is not called; in machine-readable mode the block prints
exactly one line, the result line with these four values; in human-readable
mode it prints only the message of `validate_slab`, no result line and no
table heading. -/
theorem failed_record_report {α : Type} [LinearOrderedField α] (env : Env α)
    (slab : AD_slab_type α) (nstreams machine : Int)
    (hfail : (validate_slab slab nstreams machine).2 ≠ 0) :
    (-9 ≤ (validate_slab slab nstreams machine).2 ∧
      (validate_slab slab nstreams machine).2 ≤ -1) ∧
    (calculate_and_print env slab nstreams machine).reported =
      (((validate_slab slab nstreams machine).2 : α), ((validate_slab slab nstreams machine).2 : α),
       ((validate_slab slab nstreams machine).2 : α), ((validate_slab slab nstreams machine).2 : α)) ∧
    (((validate_slab slab nstreams machine).2 : α) < 0) ∧
    (calculate_and_print env slab nstreams machine).rt_calls = [] ∧
    (machine ≠ 0 →
      (calculate_and_print env slab nstreams machine).out =
        [Line.result ((validate_slab slab nstreams machine).2 : α)
          ((validate_slab slab nstreams machine).2 : α)
          ((validate_slab slab nstreams machine).2 : α)
          ((validate_slab slab nstreams machine).2 : α)]) ∧
    (machine = 0 →
      (calculate_and_print env slab nstreams machine).out =
        (validate_slab slab nstreams machine).1 ∧
      ∀ line ∈ (calculate_and_print env slab nstreams machine).out,
        line.isResult = false ∧ line ∉ (table_heading : List (Line α))) := by
  have hrange : -9 ≤ (validate_slab slab nstreams machine).2 ∧
      (validate_slab slab nstreams machine).2 ≤ -1 := by
    rcases validate_slab_code_range slab nstreams machine with h | h
    · exact absurd h hfail
    · exact h
  refine ⟨hrange, ?_, ?_, ?_, ?_, ?_⟩
  · simp [calculate_and_print, hfail]
  · have : (validate_slab slab nstreams machine).2 < 0 := by omega
    exact_mod_cast this
  · simp [calculate_and_print, hfail]
  · intro hm
    have hmsg : (validate_slab slab nstreams machine).1 = [] := by
      unfold validate_slab
      split_ifs <;> rfl
    simp [calculate_and_print, hfail, hm, hmsg]
  · intro hm
    subst hm
    have hout : (calculate_and_print env slab nstreams 0).out =
        (validate_slab slab nstreams 0).1 := by
      simp [calculate_and_print, hfail]
    refine ⟨hout, ?_⟩
    rw [hout]
    exact validate_slab_messages slab nstreams 0

/-- Witness of C3: a record with albedo 2 in machine-readable mode. -/
theorem failed_record_report_witness :
    (validate_slab bad_albedo_slab 4 1).2 ≠ 0 ∧
    (calculate_and_print sample_env bad_albedo_slab 4 1).out =
      [Line.result (-1 : ℚ) (-1) (-1) (-1)] := by
  have h := failed_record_report sample_env bad_albedo_slab 4 1 (by decide)
  refine ⟨by decide, ?_⟩
  have e : (validate_slab bad_albedo_slab 4 1).2 = -1 := by decide
  have h5 := h.2.2.2.2.1 (by decide)
  rw [e] at h5
  simpa using h5

/-! ## Output file name -/

/-- After the option loop, `main` with one file argument is file mode. -/
theorem main_file_mode {α : Type} [LinearOrderedField α] [FloorRing α] (env : Env α)
    (fuel : Nat) (argc : Int) (opts : List (Opt α)) (l : Locals α) (f : String)
    (hargc : argc ≠ 1) (hl : option_loop env Locals.init opts = some l) :
    main env fuel argc opts [f] = file_mode env fuel l [f] := by
  unfold main
  rw [if_neg hargc, hl]
  simp

theorem file_mode_out_name {α : Type} [LinearOrderedField α] (env : Env α)
    (fuel : Nat) (l : Locals α) (f name : String)
    (hin : f ≠ "-" → (env.open_read f).isSome)
    (hname : output_name l.g_out_name f = some name)
    (hout : env.open_write name = true) :
    (file_mode env fuel l [f]).out_name = some name := by
  unfold file_mode
  dsimp only
  rw [if_neg (by simp)]
  by_cases hf : f ≠ "-"
  · rw [if_pos hf]
    obtain ⟨content, hc⟩ := Option.isSome_iff_exists.1 (hin hf)
    rw [hc]
    simp [hname, hout]
  · rw [if_neg hf]
    simp [hname, hout]

/-- C8: with an input file name f other than "-" and no -o option the output
file name is f followed by ".rt" ('data' gives 'data.rt'); with -o name it is
name; `strdup_together (s, t)` is s followed by t for two strings (its length
the sum of the lengths), a copy of t when s is NULL, a copy of s when t is
NULL, and NULL when both are NULL. -/
theorem output_file_name {α : Type} [LinearOrderedField α] [FloorRing α] (env : Env α) :
    (∀ s t : String, strdup_together (some s) (some t) = some (s ++ t) ∧
      (s ++ t).length = s.length + t.length) ∧
    (∀ t : String, strdup_together none (some t) = some t) ∧
    (∀ s : String, strdup_together (some s) none = some s) ∧
    strdup_together none none = none ∧
    (∀ f : String, f ≠ "-" → output_name none f = some (f ++ ".rt")) ∧
    output_name none "data" = some "data.rt" ∧
    (∀ name f : String, output_name (some name) f = some name) ∧
    (∀ (l : Locals α) (name : String),
      option_case env l (Opt.o name) = some { l with g_out_name := some name }) ∧
    (∀ (fuel : Nat) (argc : Int) (opts : List (Opt α)) (l : Locals α) (f : String),
      argc ≠ 1 → option_loop env Locals.init opts = some l →
      (f ≠ "-" → (env.open_read f).isSome) →
      (l.g_out_name = none → f ≠ "-" → env.open_write (f ++ ".rt") = true →
        (main env fuel argc opts [f]).out_name = some (f ++ ".rt")) ∧
      (∀ name : String, l.g_out_name = some name → env.open_write name = true →
        (main env fuel argc opts [f]).out_name = some name)) := by
  refine ⟨fun s t => ⟨rfl, String.length_append s t⟩, fun t => rfl, fun s => rfl, rfl,
    ?_, by decide, ?_, fun l name => rfl, ?_⟩
  · intro f hf
    simp [output_name, hf, strdup_together]
  · intro name f
    unfold output_name
    split_ifs <;> simp_all
  · intro fuel argc opts l f hargc hl hin
    rw [main_file_mode env fuel argc opts l f hargc hl]
    constructor
    · intro hnone hf hout
      refine file_mode_out_name env fuel l f _ hin ?_ hout
      rw [hnone]
      simp [output_name, hf, strdup_together]
    · intro name hsome hout
      refine file_mode_out_name env fuel l f name hin ?_ hout
      rw [hsome]
      unfold output_name
      split_ifs <;> simp_all

/-! ## Command-line mode -/

/-- The options `-a`, `-b`, `-g`, `-n`, `-q` never leave the program, do not
touch the other locals, and leave a parameter alone that none of them sets. -/
theorem option_loop_parameters {α : Type} [LinearOrderedField α] [FloorRing α] (env : Env α)
    (os : List (Opt α)) :
    ∀ l0 : Locals α, (∀ o ∈ os, o.isParameter = true) →
      ∃ l, option_loop env l0 os = some l ∧
        l.index_of_slide1 = l0.index_of_slide1 ∧ l.index_of_slide2 = l0.index_of_slide2 ∧
        l.g_incident_cosine = l0.g_incident_cosine ∧
        l.machine_readable_output = l0.machine_readable_output ∧
        l.g_out_name = l0.g_out_name ∧
        ((∀ x, Opt.a x ∉ os) → l.albedo = l0.albedo) ∧
        ((∀ x, Opt.b x ∉ os) → l.optical_thickness = l0.optical_thickness) ∧
        ((∀ x, Opt.g x ∉ os) → l.anisotropy = l0.anisotropy) ∧
        ((∀ x, Opt.n x ∉ os) → l.index_of_refraction = l0.index_of_refraction) ∧
        ((∀ x, Opt.q x ∉ os) → l.nstreams = l0.nstreams) := by
  induction os with
  | nil =>
    intro l0 _
    exact ⟨l0, rfl, rfl, rfl, rfl, rfl, rfl, fun _ => rfl, fun _ => rfl, fun _ => rfl,
      fun _ => rfl, fun _ => rfl⟩
  | cons o os ih =>
    intro l0 h
    have ho : o.isParameter = true := h o (List.mem_cons_self o os)
    have hos : ∀ o1 ∈ os, o1.isParameter = true :=
      fun o1 h1 => h o1 (List.mem_cons_of_mem o h1)
    cases o with
    | a x =>
      obtain ⟨l, hl, h1, h2, h3, h4, h5, ha, hb, hg, hn, hq⟩ :=
        ih { l0 with albedo := x } hos
      refine ⟨l, hl, h1, h2, h3, h4, h5, ?_, ?_, ?_, ?_, ?_⟩
      · intro hx
        exact absurd (List.mem_cons_self _ _) (hx x)
      · intro hx
        exact hb (fun y hy => hx y (List.mem_cons_of_mem _ hy))
      · intro hx
        exact hg (fun y hy => hx y (List.mem_cons_of_mem _ hy))
      · intro hx
        exact hn (fun y hy => hx y (List.mem_cons_of_mem _ hy))
      · intro hx
        exact hq (fun y hy => hx y (List.mem_cons_of_mem _ hy))
    | b x =>
      obtain ⟨l, hl, h1, h2, h3, h4, h5, ha, hb, hg, hn, hq⟩ :=
        ih { l0 with optical_thickness := x } hos
      refine ⟨l, hl, h1, h2, h3, h4, h5, ?_, ?_, ?_, ?_, ?_⟩
      · intro hx
        exact ha (fun y hy => hx y (List.mem_cons_of_mem _ hy))
      · intro hx
        exact absurd (List.mem_cons_self _ _) (hx x)
      · intro hx
        exact hg (fun y hy => hx y (List.mem_cons_of_mem _ hy))
      · intro hx
        exact hn (fun y hy => hx y (List.mem_cons_of_mem _ hy))
      · intro hx
        exact hq (fun y hy => hx y (List.mem_cons_of_mem _ hy))
    | g x =>
      obtain ⟨l, hl, h1, h2, h3, h4, h5, ha, hb, hg, hn, hq⟩ :=
        ih { l0 with anisotropy := x } hos
      refine ⟨l, hl, h1, h2, h3, h4, h5, ?_, ?_, ?_, ?_, ?_⟩
      · intro hx
        exact ha (fun y hy => hx y (List.mem_cons_of_mem _ hy))
      · intro hx
        exact hb (fun y hy => hx y (List.mem_cons_of_mem _ hy))
      · intro hx
        exact absurd (List.mem_cons_self _ _) (hx x)
      · intro hx
        exact hn (fun y hy => hx y (List.mem_cons_of_mem _ hy))
      · intro hx
        exact hq (fun y hy => hx y (List.mem_cons_of_mem _ hy))
    | n x =>
      obtain ⟨l, hl, h1, h2, h3, h4, h5, ha, hb, hg, hn, hq⟩ :=
        ih { l0 with index_of_refraction := x } hos
      refine ⟨l, hl, h1, h2, h3, h4, h5, ?_, ?_, ?_, ?_, ?_⟩
      · intro hx
        exact ha (fun y hy => hx y (List.mem_cons_of_mem _ hy))
      · intro hx
        exact hb (fun y hy => hx y (List.mem_cons_of_mem _ hy))
      · intro hx
        exact hg (fun y hy => hx y (List.mem_cons_of_mem _ hy))
      · intro hx
        exact absurd (List.mem_cons_self _ _) (hx x)
      · intro hx
        exact hq (fun y hy => hx y (List.mem_cons_of_mem _ hy))
    | q x =>
      obtain ⟨l, hl, h1, h2, h3, h4, h5, ha, hb, hg, hn, hq⟩ :=
        ih { l0 with nstreams := c_int x } hos
      refine ⟨l, hl, h1, h2, h3, h4, h5, ?_, ?_, ?_, ?_, ?_⟩
      · intro hx
        exact ha (fun y hy => hx y (List.mem_cons_of_mem _ hy))
      · intro hx
        exact hb (fun y hy => hx y (List.mem_cons_of_mem _ hy))
      · intro hx
        exact hg (fun y hy => hx y (List.mem_cons_of_mem _ hy))
      · intro hx
        exact hn (fun y hy => hx y (List.mem_cons_of_mem _ hy))
      · intro hx
        exact absurd (List.mem_cons_self _ _) (hx x)
    | i x => exact absurd ho (by simp [Opt.isParameter])
    | o name => exact absurd ho (by simp [Opt.isParameter])
    | s x => exact absurd ho (by simp [Opt.isParameter])
    | t x => exact absurd ho (by simp [Opt.isParameter])
    | m => exact absurd ho (by simp [Opt.isParameter])
    | v => exact absurd ho (by simp [Opt.isParameter])
    | h => exact absurd ho (by simp [Opt.isParameter])

/-- After the option loop, `main` without a file argument is command-line mode. -/
theorem main_command_line_mode {α : Type} [LinearOrderedField α] [FloorRing α] (env : Env α)
    (fuel : Nat) (argc : Int) (opts : List (Opt α)) (l : Locals α)
    (hargc : argc ≠ 1) (hl : option_loop env Locals.init opts = some l) :
    main env fuel argc opts [] = command_line_mode env l := by
  unfold main
  rw [if_neg hargc, hl]
  simp

/-- The record of command-line mode passes `validate_slab` when the locals are within range. -/
theorem command_line_calls {α : Type} [LinearOrderedField α] (env : Env α) (l : Locals α)
    (h : InBounds (command_line_slab env l) l.nstreams) :
    (command_line_mode env l).rt_calls = [(l.nstreams, command_line_slab env l)] := by
  unfold command_line_mode
  dsimp only
  rw [calculate_and_print_rt_calls,
    if_pos ((validate_slab_eq_zero_iff _ _ _).2 h)]

/-- C6: each of the options -a, -b, -g, -n, -q stores its argument in its own
local and changes nothing else; the locals start at g=0, n_slab=1, both slide
indices 1, incident cosine 1, 24 streams, and command-line mode takes slide
optical thicknesses 0 and the Henyey-Greenstein phase function, so a parameter
no option sets keeps its default; for '-a 0.3 -b 0.4' the record is a=0.3,
b=0.4, g=0, n_slab=1, no slides, cosine 1 with N=24, `validate_slab` returns 0
on it and `RT` is called once, with it. -/
theorem command_line_options {α : Type} [LinearOrderedField α] [FloorRing α] (env : Env α) :
    (∀ (l : Locals α) (x : α), option_case env l (Opt.a x) = some { l with albedo := x }) ∧
    (∀ (l : Locals α) (x : α),
      option_case env l (Opt.b x) = some { l with optical_thickness := x }) ∧
    (∀ (l : Locals α) (x : α), option_case env l (Opt.g x) = some { l with anisotropy := x }) ∧
    (∀ (l : Locals α) (x : α),
      option_case env l (Opt.n x) = some { l with index_of_refraction := x }) ∧
    (∀ (l : Locals α) (x : α),
      option_case env l (Opt.q x) = some { l with nstreams := c_int x }) ∧
    ((Locals.init : Locals α) =
      { nstreams := 24, anisotropy := 0, albedo := 0.5, index_of_refraction := 1,
        index_of_slide1 := 1, index_of_slide2 := 1, optical_thickness := 100,
        g_out_name := none, g_incident_cosine := 1, machine_readable_output := 0 }) ∧
    (∀ l : Locals α, command_line_slab env l =
      { a := l.albedo, b := l.optical_thickness, g := l.anisotropy,
        phase_function := env.HENYEY_GREENSTEIN, n_slab := l.index_of_refraction,
        n_top_slide := l.index_of_slide1, n_bottom_slide := l.index_of_slide2,
        b_top_slide := 0, b_bottom_slide := 0, cos_angle := l.g_incident_cosine }) ∧
    (∀ os : List (Opt α), (∀ o ∈ os, o.isParameter = true) →
      ∃ l, option_loop env Locals.init os = some l ∧
        l.index_of_slide1 = 1 ∧ l.index_of_slide2 = 1 ∧ l.g_incident_cosine = 1 ∧
        ((∀ x, Opt.g x ∉ os) → l.anisotropy = 0) ∧
        ((∀ x, Opt.n x ∉ os) → l.index_of_refraction = 1) ∧
        ((∀ x, Opt.q x ∉ os) → l.nstreams = 24) ∧
        ∀ (fuel : Nat) (argc : Int), argc ≠ 1 →
          main env fuel argc os [] = command_line_mode env l) ∧
    (∀ fuel : Nat,
      (main env fuel 5 [Opt.a 0.3, Opt.b 0.4] []).rt_calls =
        [(24,
          { a := 0.3, b := 0.4, g := 0, phase_function := env.HENYEY_GREENSTEIN,
            n_slab := 1, n_top_slide := 1, n_bottom_slide := 1, b_top_slide := 0,
            b_bottom_slide := 0, cos_angle := 1 })] ∧
      (main env fuel 5 [Opt.a 0.3, Opt.b 0.4] []).status = some 0) ∧
    (∀ machine : Int,
      (validate_slab
          ({ a := 0.3, b := 0.4, g := 0, phase_function := env.HENYEY_GREENSTEIN,
             n_slab := 1, n_top_slide := 1, n_bottom_slide := 1, b_top_slide := 0,
             b_bottom_slide := 0, cos_angle := 1 } : AD_slab_type α)
          24 machine).2 = 0) := by
  have hinit : (Locals.init : Locals α) = ⟨24, 0, 0.5, 1, 1, 1, 100, none, 1, 0⟩ := by
    simp only [Locals.init]
    norm_num
  have hslab : ∀ l : Locals α, command_line_slab env l =
      ⟨l.albedo, l.optical_thickness, l.anisotropy, env.HENYEY_GREENSTEIN,
        l.index_of_refraction, l.index_of_slide1, l.index_of_slide2, 0, 0,
        l.g_incident_cosine⟩ := by
    intro l
    simp only [command_line_slab]
    norm_num
  have hvalid : InBounds
      (⟨0.3, 0.4, 0, env.HENYEY_GREENSTEIN, 1, 1, 1, 0, 0, 1⟩ : AD_slab_type α) 24 := by
    simp only [InBounds]
    norm_num
  refine ⟨fun l x => rfl, fun l x => rfl, fun l x => rfl, fun l x => rfl, fun l x => rfl,
    hinit, hslab, ?_, ?_, ?_⟩
  · intro os hos
    obtain ⟨l, hl, h1, h2, h3, _, _, _, _, hg, hn, hq⟩ :=
      option_loop_parameters env os Locals.init hos
    refine ⟨l, hl, ?_, ?_, ?_, ?_, ?_, ?_, ?_⟩
    · rw [h1, hinit]
    · rw [h2, hinit]
    · rw [h3, hinit]
    · intro hx
      rw [hg hx, hinit]
    · intro hx
      rw [hn hx, hinit]
    · intro hx
      rw [hq hx, hinit]
    · intro fuel argc hargc
      exact main_command_line_mode env fuel argc os l hargc hl
  · intro fuel
    have hl : option_loop env (Locals.init : Locals α) [Opt.a 0.3, Opt.b 0.4] =
        some ⟨24, 0, 0.3, 1, 1, 1, 0.4, none, 1, 0⟩ := by
      rw [hinit]
      rfl
    rw [main_command_line_mode env fuel 5 _ _ (by decide) hl]
    refine ⟨?_, rfl⟩
    rw [command_line_calls env _ (by rw [hslab]; exact hvalid), hslab]
  · intro machine
    exact (validate_slab_eq_zero_iff _ _ _).2 hvalid

/-- C5 (what the code does): for the invocation 'ad -a 0.3' the engine is
called once, with a=0.3, g=0, n=1 and the finite optical thickness b=100,
the initial value of `optical_thickness`; no option means no infinite slab. -/
theorem command_line_default_thickness {α : Type} [LinearOrderedField α] [FloorRing α]
    (env : Env α) (fuel : Nat) :
    (main env fuel 3 [Opt.a 0.3] []).rt_calls =
      [(24, { a := 0.3, b := 100, g := 0, phase_function := env.HENYEY_GREENSTEIN,
              n_slab := 1, n_top_slide := 1, n_bottom_slide := 1, b_top_slide := 0,
              b_bottom_slide := 0, cos_angle := 1 })] ∧
    (Locals.init : Locals α).optical_thickness = 100 := by
  have hinit : (Locals.init : Locals α) = ⟨24, 0, 0.5, 1, 1, 1, 100, none, 1, 0⟩ := by
    simp only [Locals.init]
    norm_num
  have hl : option_loop env (Locals.init : Locals α) [Opt.a 0.3] =
      some ⟨24, 0, 0.3, 1, 1, 1, 100, none, 1, 0⟩ := by
    rw [hinit]
    rfl
  have hslab : command_line_slab env (⟨24, 0, 0.3, 1, 1, 1, 100, none, 1, 0⟩ : Locals α) =
      ⟨0.3, 100, 0, env.HENYEY_GREENSTEIN, 1, 1, 1, 0, 0, 1⟩ := by
    simp only [command_line_slab]
    norm_num
  have hvalid : InBounds
      (⟨0.3, 100, 0, env.HENYEY_GREENSTEIN, 1, 1, 1, 0, 0, 1⟩ : AD_slab_type α) 24 := by
    simp only [InBounds]
    norm_num
  refine ⟨?_, rfl⟩
  rw [main_command_line_mode env fuel 3 _ _ (by decide) hl,
    command_line_calls env _ (by rw [hslab]; exact hvalid), hslab]

/-! ## The incident cosine -/

/-- The cosine of an angle of 0 to 90 degrees, converted with the constant of
the source, is in (0, 1]: the constant is below π, so 90 degrees stays below π/2. -/
theorem cos_degrees_range (x : ℝ) (h0 : 0 ≤ x) (h90 : x ≤ 90) :
    0 < Real.cos (x * 3.1415926535 / 180.0) ∧ Real.cos (x * 3.1415926535 / 180.0) ≤ 1 := by
  refine ⟨?_, Real.cos_le_one _⟩
  have hpi : (3.1415926535 : ℝ) < Real.pi := lt_trans (by norm_num) Real.pi_gt_d20
  apply Real.cos_pos_of_mem_Ioo
  constructor
  · have : (0 : ℝ) ≤ x * 3.1415926535 / 180.0 := by positivity
    linarith [Real.pi_pos]
  · have h1 : x * 3.1415926535 / 180.0 ≤ 90 * 3.1415926535 / 180.0 := by
      apply div_le_div_of_nonneg_right _ (by norm_num)
      exact mul_le_mul_of_nonneg_right h90 (by norm_num)
    have h2 : (90 : ℝ) * 3.1415926535 / 180.0 = 3.1415926535 / 2 := by norm_num
    linarith

/-- A property of the locals that every case of the switch keeps holds after the option loop. -/
theorem option_loop_invariant {α : Type} [LinearOrderedField α] [FloorRing α] (env : Env α)
    (P : Locals α → Prop)
    (hstep : ∀ (l : Locals α) (o : Opt α) (l1 : Locals α),
      P l → option_case env l o = some l1 → P l1)
    (os : List (Opt α)) :
    ∀ l0 l : Locals α, P l0 → option_loop env l0 os = some l → P l := by
  induction os with
  | nil =>
    intro l0 l h0 hl
    simp only [option_loop, Option.some.injEq] at hl
    exact hl ▸ h0
  | cons o os ih =>
    intro l0 l h0 hl
    unfold option_loop at hl
    cases hc : option_case env l0 o with
    | none =>
      rw [hc] at hl
      exact absurd hl (by simp)
    | some l1 =>
      rw [hc] at hl
      exact ih l1 l (hstep l0 o l1 h0 hc) hl

/-- With the real cosine, every case of the switch keeps the incident cosine in (0, 1]. -/
theorem option_case_cosine (env : Env ℝ) (hcos : env.cos = Real.cos)
    (l : Locals ℝ) (o : Opt ℝ) (l1 : Locals ℝ)
    (h : 0 < l.g_incident_cosine ∧ l.g_incident_cosine ≤ 1)
    (hc : option_case env l o = some l1) :
    0 < l1.g_incident_cosine ∧ l1.g_incident_cosine ≤ 1 := by
  cases o with
  | i x =>
    simp only [option_case] at hc
    by_cases hx : x < 0 ∨ x > 90
    · rw [if_pos hx, Option.some.injEq] at hc
      exact hc ▸ h
    · rw [if_neg hx, Option.some.injEq] at hc
      rw [not_or, not_lt, gt_iff_lt, not_lt] at hx
      rw [← hc, hcos]
      exact cos_degrees_range x hx.1 hx.2
  | v => exact absurd hc (by simp [option_case])
  | h => exact absurd hc (by simp [option_case])
  | o name =>
    simp only [option_case, Option.some.injEq] at hc
    exact hc ▸ h
  | n x =>
    simp only [option_case, Option.some.injEq] at hc
    exact hc ▸ h
  | s x =>
    simp only [option_case, Option.some.injEq] at hc
    exact hc ▸ h
  | t x =>
    simp only [option_case, Option.some.injEq] at hc
    exact hc ▸ h
  | m =>
    simp only [option_case, Option.some.injEq] at hc
    exact hc ▸ h
  | q x =>
    simp only [option_case, Option.some.injEq] at hc
    exact hc ▸ h
  | a x =>
    simp only [option_case, Option.some.injEq] at hc
    exact hc ▸ h
  | b x =>
    simp only [option_case, Option.some.injEq] at hc
    exact hc ▸ h
  | g x =>
    simp only [option_case, Option.some.injEq] at hc
    exact hc ▸ h

/-- A sequence of `-i` options never leaves the program. -/
theorem option_loop_incidence {α : Type} [LinearOrderedField α] [FloorRing α] (env : Env α)
    (xs : List α) : ∀ l0 : Locals α, ∃ l, option_loop env l0 (xs.map Opt.i) = some l := by
  induction xs with
  | nil => exact fun l0 => ⟨l0, rfl⟩
  | cons x xs ih =>
    intro l0
    simp only [List.map_cons, option_loop, option_case]
    split_ifs
    · exact ih l0
    · exact ih _

/-- C7: with the real cosine, the incident cosine starts at 1; `-i x` with
0 <= x <= 90 replaces it by cos (x * 3.1415926535 / 180), which is positive
(also at x = 90) and at most 1; `-i x` with x outside [0, 90] leaves the locals
as they are; so after every sequence of `-i` options (after every option
sequence that reaches the end of the loop) the incident cosine lies in (0, 1],
and so does `cos_angle` of every slab `main` hands to `RT`. -/
theorem incident_cosine_range (env : Env ℝ) (hcos : env.cos = Real.cos) :
    (Locals.init : Locals ℝ).g_incident_cosine = 1 ∧
    (∀ (l : Locals ℝ) (x : ℝ), 0 ≤ x → x ≤ 90 →
      option_case env l (Opt.i x) =
        some { l with g_incident_cosine := Real.cos (x * 3.1415926535 / 180) } ∧
      0 < Real.cos (x * 3.1415926535 / 180) ∧ Real.cos (x * 3.1415926535 / 180) ≤ 1) ∧
    0 < Real.cos (90 * 3.1415926535 / 180) ∧
    (∀ (l : Locals ℝ) (x : ℝ), (x < 0 ∨ 90 < x) → option_case env l (Opt.i x) = some l) ∧
    (∀ xs : List ℝ, ∃ l, option_loop env Locals.init (xs.map Opt.i) = some l ∧
      0 < l.g_incident_cosine ∧ l.g_incident_cosine ≤ 1) ∧
    (∀ (opts : List (Opt ℝ)) (l : Locals ℝ), option_loop env Locals.init opts = some l →
      0 < l.g_incident_cosine ∧ l.g_incident_cosine ≤ 1) ∧
    (∀ (fuel : Nat) (argc : Int) (opts : List (Opt ℝ)) (files : List String),
      ∀ p ∈ (main env fuel argc opts files).rt_calls,
        0 < p.2.cos_angle ∧ p.2.cos_angle ≤ 1) := by
  have hinit : (0 : ℝ) < (Locals.init : Locals ℝ).g_incident_cosine ∧
      (Locals.init : Locals ℝ).g_incident_cosine ≤ 1 := by
    simp [Locals.init]
  have hloop : ∀ (opts : List (Opt ℝ)) (l : Locals ℝ),
      option_loop env Locals.init opts = some l →
      0 < l.g_incident_cosine ∧ l.g_incident_cosine ≤ 1 := fun opts l hl =>
    option_loop_invariant env (fun l => 0 < l.g_incident_cosine ∧ l.g_incident_cosine ≤ 1)
      (option_case_cosine env hcos) opts Locals.init l hinit hl
  have hdeg : ∀ x : ℝ, Real.cos (x * 3.1415926535 / 180) =
      Real.cos (x * 3.1415926535 / 180.0) := by
    intro x
    norm_num
  refine ⟨rfl, ?_, ?_, ?_, ?_, hloop, ?_⟩
  · intro l x h0 h90
    refine ⟨?_, ?_⟩
    · simp only [option_case]
      rw [if_neg (by rw [not_or, not_lt, gt_iff_lt, not_lt]; exact ⟨h0, h90⟩), hcos, hdeg]
    · rw [hdeg]
      exact cos_degrees_range x h0 h90
  · rw [hdeg]
    exact (cos_degrees_range 90 (by norm_num) (by norm_num)).1
  · intro l x hx
    simp only [option_case]
    rw [if_pos hx]
  · intro xs
    obtain ⟨l, hl⟩ := option_loop_incidence env xs Locals.init
    exact ⟨l, hl, hloop _ l hl⟩
  · intro fuel argc opts files p hp
    obtain ⟨l, hl, hq⟩ := main_calls env (fun l q => q.2.cos_angle = l.g_incident_cosine)
      (fun l slab n q hq => by
        rw [calculate_and_print_rt_calls] at hq
        split_ifs at hq
        · rw [List.mem_singleton] at hq
          rw [hq]
        · exact absurd hq (List.not_mem_nil q))
      fuel argc opts files p hp
    rw [hq]
    exact hloop opts l hl

/-- Witness of C7: an environment with the real cosine, and the option `-i 90`. -/
theorem incident_cosine_range_witness :
    0 < Real.cos (90 * 3.1415926535 / 180) :=
  (incident_cosine_range
    { RT := fun _ slab => (slab, 0, 0, 0, 0), cos := Real.cos, HENYEY_GREENSTEIN := 1,
      open_read := fun _ => none, open_write := fun _ => true, stdin := [],
      slab0 := ⟨0, 0, 0, 0, 0, 0, 0, 0, 0, 0⟩ } rfl).2.2.1

/-! ## The record loop on input that is not a record -/

/-- On a stream that starts with the letter `x` the directive `%lf` fails to
match: it returns 0, stores nothing and leaves the stream as it is. -/
theorem scanf_lf_no_match {α : Type} [LinearOrderedField α] (rest : List Char) (v : α) :
    scanf_lf { rest := 'x' :: rest, eof := false } v =
      ({ rest := 'x' :: rest, eof := false }, 0, v) := by
  have h1 : isspace 'x' = false := by decide
  have h2 : Char.isDigit 'x' = false := by decide
  have h3 : ¬ ('x' = '-') := by decide
  have h4 : ¬ ('x' = '+') := by decide
  have h5 : ¬ ('x' = '.') := by decide
  simp [scanf_lf, List.dropWhile, take_sign, take_fraction, List.span, List.span.loop,
    h1, h2, h3, h4, h5]

/-- On a stream that starts with the letter `x` the directive `%d` fails to match. -/
theorem scanf_d_no_match (rest : List Char) (n : Int) :
    scanf_d { rest := 'x' :: rest, eof := false } n =
      ({ rest := 'x' :: rest, eof := false }, 0, n) := by
  have h1 : isspace 'x' = false := by decide
  have h2 : Char.isDigit 'x' = false := by decide
  have h3 : ¬ ('x' = '-') := by decide
  have h4 : ¬ ('x' = '+') := by decide
  simp [scanf_d, List.dropWhile, take_sign, List.span, List.span.loop, h1, h2, h3, h4]

theorem guarded_lf_no_match {α β : Type} [LinearOrderedField α] (rest : List Char) (w : β)
    (v : α) :
    guarded_lf (({ rest := 'x' :: rest, eof := false }, 0, w) : Stream × Int × β) v =
      ({ rest := 'x' :: rest, eof := false }, 0, v) := by
  have h0 : (0 : Int) ≠ EOF := by decide
  unfold guarded_lf
  rw [if_pos h0, scanf_lf_no_match]

theorem guarded_d_no_match {β : Type} (rest : List Char) (w : β) (n : Int) :
    guarded_d (({ rest := 'x' :: rest, eof := false }, 0, w) : Stream × Int × β) n =
      ({ rest := 'x' :: rest, eof := false }, 0, n) := by
  have h0 : (0 : Int) ≠ EOF := by decide
  unfold guarded_d
  rw [if_pos h0, scanf_d_no_match]

/-- Reading a record from a stream that starts with `x` consumes nothing:
all nine reads return 0, none is `EOF`, the indicator stays clear. -/
theorem read_line_no_match {α : Type} [LinearOrderedField α] (g : α) (rest : List Char)
    (slab : AD_slab_type α) (n : Int) :
    read_line g { rest := 'x' :: rest, eof := false } slab n =
      ({ rest := 'x' :: rest, eof := false }, { slab with cos_angle := g }, n) := by
  simp only [read_line, scanf_lf_no_match, guarded_lf_no_match, guarded_d_no_match]

/-- On a stream that starts with `x` the record loop is never left. -/
theorem file_loop_no_match {α : Type} [LinearOrderedField α] (env : Env α) (g : α)
    (machine : Int) (rest : List Char) (fuel : Nat) :
    ∀ st : State α, st.stdin = { rest := 'x' :: rest, eof := false } →
      (file_loop env g machine fuel st).2 = false ∧
      (file_loop env g machine fuel st).1.stdin = { rest := 'x' :: rest, eof := false } := by
  induction fuel with
  | zero =>
    intro st hst
    simp [file_loop, feof, hst]
  | succ k ih =>
    intro st hst
    have hf : feof st.stdin = 0 := by simp [feof, hst]
    unfold file_loop
    rw [if_pos hf]
    apply ih
    simp only [loop_body, hst, read_line_no_match]

/-- In machine-readable mode `validate_slab` prints nothing. -/
theorem validate_slab_quiet {α : Type} [LinearOrderedField α]
    (slab : AD_slab_type α) (nstreams machine : Int) (hm : machine ≠ 0) :
    (validate_slab slab nstreams machine).1 = [] := by
  unfold validate_slab
  split_ifs <;> rfl

/-- In machine-readable mode the block prints one line for the record, the result line. -/
theorem calculate_and_print_machine {α : Type} [LinearOrderedField α] (env : Env α)
    (slab : AD_slab_type α) (nstreams machine : Int) (hm : machine ≠ 0) :
    (calculate_and_print env slab nstreams machine).out =
      [Line.result (calculate_and_print env slab nstreams machine).reported.1
        (calculate_and_print env slab nstreams machine).reported.2.1
        (calculate_and_print env slab nstreams machine).reported.2.2.1
        (calculate_and_print env slab nstreams machine).reported.2.2.2] := by
  simp only [calculate_and_print, validate_slab_quiet slab nstreams machine hm, if_pos hm,
    ne_eq, not_false_eq_true, hm, if_true, List.nil_append]

/-- File mode on the standard input (`-`) without `-o`: the record loop on
the characters waiting there, standard output left where it is. -/
theorem file_mode_stdin {α : Type} [LinearOrderedField α] (env : Env α) (fuel : Nat)
    (l : Locals α) (hname : l.g_out_name = none) :
    file_mode env fuel l ["-"] =
      { status :=
          if (file_loop env l.g_incident_cosine l.machine_readable_output fuel
            { stdin := { rest := env.stdin, eof := false }, slab := env.slab0,
              nstreams := l.nstreams, out := [], rt_calls := [] }).2 then some 0 else none,
        out_name := none,
        out := (file_loop env l.g_incident_cosine l.machine_readable_output fuel
            { stdin := { rest := env.stdin, eof := false }, slab := env.slab0,
              nstreams := l.nstreams, out := [], rt_calls := [] }).1.out,
        rt_calls := (file_loop env l.g_incident_cosine l.machine_readable_output fuel
            { stdin := { rest := env.stdin, eof := false }, slab := env.slab0,
              nstreams := l.nstreams, out := [], rt_calls := [] }).1.rt_calls } := by
  simp [file_mode, output_name, hname]

/-- C10 (what the code does): on an input that starts with the letter `x`, a
token that is not a number, every read of the record loop returns 0, nothing
is consumed and the end-of-file indicator is never set: for every number of
passes the loop has not been left, `main` has not returned, and in
machine-readable mode each pass has printed one more line. -/
theorem record_loop_hangs {α : Type} [LinearOrderedField α] [FloorRing α] (env : Env α)
    (rest : List Char) (fuel : Nat) :
    (main { env with stdin := 'x' :: rest } fuel 2 [] ["-"]).status = none ∧
    (main { env with stdin := 'x' :: rest } fuel 3 [Opt.m] ["-"]).status = none ∧
    (main { env with stdin := 'x' :: rest } fuel 3 [Opt.m] ["-"]).out.length = fuel ∧
    (∀ (g : α) (machine : Int) (st : State α),
      st.stdin = { rest := 'x' :: rest, eof := false } →
      (file_loop env g machine fuel st).2 = false) := by
  have hlen : ∀ (e : Env α) (g : α) (k : Nat) (st : State α),
      st.stdin = { rest := 'x' :: rest, eof := false } →
      (file_loop e g 1 k st).1.out.length = st.out.length + k := by
    intro e g k
    induction k with
    | zero => intro st _; rfl
    | succ k ih =>
      intro st hst
      have hf : feof st.stdin = 0 := by simp [feof, hst]
      unfold file_loop
      rw [if_pos hf, ih _ (by simp only [loop_body, hst, read_line_no_match])]
      simp only [loop_body, List.length_append]
      rw [calculate_and_print_machine e _ _ 1 (by decide)]
      simp only [List.length_singleton]
      omega
  have hm : option_loop { env with stdin := 'x' :: rest } (Locals.init : Locals α) [Opt.m] =
      some { (Locals.init : Locals α) with machine_readable_output := 1 } := rfl
  rw [main_file_mode _ fuel 2 [] Locals.init "-" (by decide) rfl,
    main_file_mode _ fuel 3 [Opt.m] _ "-" (by decide) hm,
    file_mode_stdin _ fuel _ rfl, file_mode_stdin _ fuel _ rfl]
  refine ⟨?_, ?_, ?_, ?_⟩
  · dsimp only
    rw [(file_loop_no_match _ _ _ rest fuel _ rfl).1]
    rfl
  · dsimp only
    rw [(file_loop_no_match _ _ _ rest fuel _ rfl).1]
    rfl
  · dsimp only
    rw [hlen _ _ fuel _ rfl]
    simp
  · intro g machine st hst
    exact (file_loop_no_match env g machine rest fuel st hst).1

/-! ## The record loop at the end of the input -/

/-- With only white space left, `%lf` meets the end of the input: it returns
`EOF`, stores nothing and sets the end-of-file indicator. -/
theorem scanf_lf_at_end {α : Type} [LinearOrderedField α] (s : Stream) (v : α)
    (h : ∀ c ∈ s.rest, isspace c = true) :
    scanf_lf s v = ({ rest := [], eof := true }, EOF, v) := by
  have hd : s.rest.dropWhile isspace = [] := List.dropWhile_eq_nil_iff.2 h
  simp [scanf_lf, hd]

theorem guarded_lf_skipped {α β : Type} [LinearOrderedField α] (s : Stream) (w : β) (v : α) :
    guarded_lf ((s, EOF, w) : Stream × Int × β) v = (s, EOF, v) := by
  simp [guarded_lf]

theorem guarded_d_skipped {β : Type} (s : Stream) (w : β) (n : Int) :
    guarded_d ((s, EOF, w) : Stream × Int × β) n = (s, EOF, n) := by
  simp [guarded_d]

/-- With only white space left, reading a record stores nothing: the slab and
`nstreams` keep what the record before left in them. -/
theorem read_line_at_end {α : Type} [LinearOrderedField α] (g : α) (s : Stream)
    (slab : AD_slab_type α) (n : Int) (h : ∀ c ∈ s.rest, isspace c = true) :
    read_line g s slab n = ({ rest := [], eof := true }, { slab with cos_angle := g }, n) := by
  simp only [read_line, scanf_lf_at_end s _ h, guarded_lf_skipped, guarded_d_skipped]

/-- The record loop is left once the indicator is set. -/
theorem file_loop_done {α : Type} [LinearOrderedField α] (env : Env α) (g : α)
    (machine : Int) (fuel : Nat) (st : State α) (h : st.stdin.eof = true) :
    file_loop env g machine fuel st = (st, true) := by
  cases fuel with
  | zero => simp [file_loop, feof, h]
  | succ k => simp [file_loop, feof, h]

/-- With only white space left and the indicator clear, the loop makes one
more pass, on the record the pass before left behind, and is then left. -/
theorem file_loop_at_end {α : Type} [LinearOrderedField α] (env : Env α) (g : α)
    (machine : Int) (fuel : Nat) (st : State α) (heof : st.stdin.eof = false)
    (h : ∀ c ∈ st.stdin.rest, isspace c = true) :
    file_loop env g machine (fuel + 1) st =
      ({ stdin := { rest := [], eof := true },
         slab := (calculate_and_print env
           { st.slab with phase_function := env.HENYEY_GREENSTEIN, cos_angle := g }
           st.nstreams machine).slab,
         nstreams := st.nstreams,
         out := st.out ++ (calculate_and_print env
           { st.slab with phase_function := env.HENYEY_GREENSTEIN, cos_angle := g }
           st.nstreams machine).out,
         rt_calls := st.rt_calls ++ (calculate_and_print env
           { st.slab with phase_function := env.HENYEY_GREENSTEIN, cos_angle := g }
           st.nstreams machine).rt_calls }, true) := by
  have hf : feof st.stdin = 0 := by simp [feof, heof]
  unfold file_loop
  rw [if_pos hf, file_loop_done]
  · simp only [loop_body, read_line_at_end g st.stdin _ st.nstreams h]
  · simp only [loop_body, read_line_at_end g st.stdin _ st.nstreams h]

/-- Where `%lf` leaves the stream and what it returns do not depend on the
type of the numbers nor on what the variable held. -/
theorem scanf_lf_position {α β : Type} [LinearOrderedField α] [LinearOrderedField β]
    (s : Stream) (v : α) (w : β) : SamePosition (scanf_lf s v) (scanf_lf s w) := by
  unfold scanf_lf SamePosition
  dsimp only
  split_ifs <;> exact ⟨rfl, rfl⟩

theorem guarded_lf_position {α β γ δ : Type} [LinearOrderedField α] [LinearOrderedField β]
    (p : Stream × Int × γ) (q : Stream × Int × δ) (h : SamePosition p q) (v : α) (w : β) :
    SamePosition (guarded_lf p v) (guarded_lf q w) := by
  unfold guarded_lf
  rw [h.1, h.2]
  split_ifs
  · exact scanf_lf_position q.1 v w
  · exact ⟨rfl, rfl⟩

theorem guarded_d_eq {γ δ : Type} (p : Stream × Int × γ) (q : Stream × Int × δ)
    (h : SamePosition p q) (n : Int) : guarded_d p n = guarded_d q n := by
  unfold guarded_d
  rw [h.1, h.2]

/-- Where `%d` leaves the stream does not depend on what the variable held. -/
theorem guarded_d_stream {γ : Type} (p : Stream × Int × γ) (n m : Int) :
    (guarded_d p n).1 = (guarded_d p m).1 := by
  unfold guarded_d scanf_d
  dsimp only
  split_ifs <;> rfl

/-- The stream after a record is read does not depend on the type of the
numbers nor on the slab and the quadrature order read into. -/
theorem read_line_position {α β : Type} [LinearOrderedField α] [LinearOrderedField β]
    (g : α) (g2 : β) (s : Stream) (slab : AD_slab_type α) (slab2 : AD_slab_type β)
    (n n2 : Int) :
    (read_line g s slab n).1 = (read_line g2 s slab2 n2).1 := by
  have h1 := scanf_lf_position s slab.a slab2.a
  have h2 := guarded_lf_position _ _ h1 slab.b slab2.b
  have h3 := guarded_lf_position _ _ h2 slab.g slab2.g
  have h4 := guarded_lf_position _ _ h3 slab.n_slab slab2.n_slab
  have h5 := guarded_lf_position _ _ h4 slab.n_top_slide slab2.n_top_slide
  have h6 := guarded_lf_position _ _ h5 slab.n_bottom_slide slab2.n_bottom_slide
  have h7 := guarded_lf_position _ _ h6 slab.b_top_slide slab2.b_top_slide
  have h8 := guarded_lf_position _ _ h7 slab.b_bottom_slide slab2.b_bottom_slide
  have h9 := guarded_d_eq _ _ h8 n
  simp only [read_line]
  rw [h9]
  exact guarded_d_stream _ n n2

/-- After the record of the one-record input is read, the newline is left
and the end-of-file indicator is clear. -/
theorem read_line_one_record {α : Type} [LinearOrderedField α] (g : α)
    (slab : AD_slab_type α) (n : Int) :
    (read_line g { rest := one_record_text, eof := false } slab n).1 =
      { rest := ['\n'], eof := false } := by
  rw [read_line_position g (0 : ℚ) _ slab sample_env.slab0 n 0]
  decide!

/-- In machine-readable mode a pass of the record loop prints exactly one line. -/
theorem loop_body_machine {α : Type} [LinearOrderedField α] (env : Env α) (g : α)
    (st : State α) : (loop_body env g 1 st).out.length = st.out.length + 1 := by
  simp only [loop_body, List.length_append]
  rw [calculate_and_print_machine env _ _ 1 (by decide)]
  rfl

/-- C4 (what the code does): a pass of the record loop that finds only white
space before the end of the input still runs the block on the record left by
the pass before; so, whatever the engine, the one-record input
`0.5 1 0 1 1 1 0 0 4` followed by a newline gives two result lines in
machine-readable mode (with the sample engine the second repeats the first),
and the empty input gives one line. -/
theorem batch_loop_extra_line {α : Type} [LinearOrderedField α] [FloorRing α] (env : Env α) :
    (∀ (g : α) (machine : Int) (fuel : Nat) (st : State α), st.stdin.eof = false →
      (∀ c ∈ st.stdin.rest, isspace c = true) →
      (file_loop env g machine (fuel + 1) st).1.out =
        st.out ++ (calculate_and_print env
          { st.slab with phase_function := env.HENYEY_GREENSTEIN, cos_angle := g }
          st.nstreams machine).out ∧
      (file_loop env g machine (fuel + 1) st).2 = true) ∧
    (∀ fuel : Nat,
      (main { env with stdin := [] } (fuel + 1) 3 [Opt.m] ["-"]).out.length = 1 ∧
      (main { env with stdin := [] } (fuel + 1) 3 [Opt.m] ["-"]).status = some 0) ∧
    (∀ fuel : Nat,
      (main { env with stdin := one_record_text } (fuel + 2) 3 [Opt.m] ["-"]).out.length = 2 ∧
      (main { env with stdin := one_record_text } (fuel + 2) 3 [Opt.m] ["-"]).status =
        some 0) ∧
    (main one_record_env 5 3 [Opt.m] ["-"]).out =
      [Line.result (1 / 10) (2 / 10) (3 / 10) (4 / 10),
       Line.result (1 / 10) (2 / 10) (3 / 10) (4 / 10)] ∧
    (main one_record_env 5 3 [Opt.m] ["-"]).status = some 0 := by
  refine ⟨?_, ?_, ?_, by decide!, by decide!⟩
  · intro g machine fuel st heof h
    rw [file_loop_at_end env g machine fuel st heof h]
    exact ⟨rfl, rfl⟩
  · intro fuel
    have hm : option_loop { env with stdin := [] } (Locals.init : Locals α) [Opt.m] =
        some { (Locals.init : Locals α) with machine_readable_output := 1 } := rfl
    rw [main_file_mode _ (fuel + 1) 3 [Opt.m] _ "-" (by decide) hm,
      file_mode_stdin _ (fuel + 1) _ rfl]
    dsimp only
    rw [file_loop_at_end _ _ _ fuel _ rfl (fun c hc => absurd hc (List.not_mem_nil c))]
    dsimp only
    rw [calculate_and_print_machine _ _ _ 1 (by decide)]
    exact ⟨rfl, rfl⟩
  · intro fuel
    have hm : option_loop { env with stdin := one_record_text } (Locals.init : Locals α)
        [Opt.m] = some { (Locals.init : Locals α) with machine_readable_output := 1 } := rfl
    rw [main_file_mode _ (fuel + 2) 3 [Opt.m] _ "-" (by decide) hm,
      file_mode_stdin _ (fuel + 2) _ rfl]
    dsimp only
    have hpass : ∀ st : State α, st.stdin = { rest := one_record_text, eof := false } →
        (loop_body { env with stdin := one_record_text } (Locals.init : Locals α).g_incident_cosine
          1 st).stdin = { rest := ['\n'], eof := false } := by
      intro st hst
      simp only [loop_body, hst]
      exact read_line_one_record _ _ _
    have hf : ∀ st : State α, st.stdin = { rest := one_record_text, eof := false } →
        feof st.stdin = 0 := by
      intro st hst
      simp [feof, hst]
    have hstep : ∀ st : State α, st.stdin = { rest := one_record_text, eof := false } →
        file_loop { env with stdin := one_record_text }
          (Locals.init : Locals α).g_incident_cosine 1 (fuel + 2) st =
        file_loop { env with stdin := one_record_text }
          (Locals.init : Locals α).g_incident_cosine 1 (fuel + 1)
          (loop_body { env with stdin := one_record_text }
            (Locals.init : Locals α).g_incident_cosine 1 st) := by
      intro st hst
      conv_lhs => unfold file_loop
      rw [if_pos (hf st hst)]
    rw [hstep _ rfl, file_loop_at_end _ _ _ fuel _
      (by rw [hpass _ rfl]) (by
        rw [hpass _ rfl]
        intro c hc
        rw [List.mem_singleton] at hc
        rw [hc]
        decide)]
    dsimp only
    rw [List.length_append, loop_body_machine, calculate_and_print_machine _ _ _ 1 (by decide)]
    exact ⟨rfl, rfl⟩

end AD
